import Mathlib

/-
  Verification development for the document classification and marker-driven
  requirement segmentation engine of the docling repository.

  The Python sources (src/marker_index.py, src/segmentation.py, src/utils.py,
  src/extractors.py, src/extraction/classifier.py, and the extract_requirements
  pipeline of src/simple.py) are shallowly embedded below.  Python strings are
  modelled as lists of characters (`Str`), Python floats as rationals together
  with an explicit decimal rendering, Python dicts as insertion-ordered
  association lists, and the regular expressions used by the code as
  hand-rolled scanners reproducing the match semantics of the concrete
  patterns (greedy character classes together with the limited backtracking
  these particular patterns can perform).  ASCII semantics are assumed for
  case-mapping and character classes, which covers every string the engine
  manipulates.
-/

set_option maxRecDepth 16000

namespace Docling

/-- Python strings are modelled as lists of characters. -/
abbrev Str := List Char

/-- Characters treated as whitespace by Python str.strip and by the regex
whitespace class (ASCII range: space, tab, newline, carriage return,
vertical tab, form feed). -/
def pyIsSpace (c : Char) : Bool :=
  c.toNat = 32 || c.toNat = 9 || c.toNat = 10 || c.toNat = 13 ||
  c.toNat = 11 || c.toNat = 12

/-- ASCII lower-casing, the fragment of Python str.lower exercised here. -/
def asciiLower (c : Char) : Char :=
  if 65 ≤ c.toNat && c.toNat ≤ 90 then Char.ofNat (c.toNat + 32) else c

/-- ASCII upper-casing, the fragment of Python str.upper exercised here. -/
def asciiUpper (c : Char) : Char :=
  if 97 ≤ c.toNat && c.toNat ≤ 122 then Char.ofNat (c.toNat - 32) else c

def lowerStr (s : Str) : Str := s.map asciiLower

def upperStr (s : Str) : Str := s.map asciiUpper

/-- Python str.strip with no argument: drop whitespace from both ends. -/
def pyStrip (s : Str) : Str :=
  List.rdropWhile pyIsSpace (List.dropWhile pyIsSpace s)

/-- Python substring containment (the `in` operator on strings). -/
def isSubstr (needle : Str) : Str → Bool
  | [] => needle.isEmpty
  | c :: rest => needle.isPrefixOf (c :: rest) || isSubstr needle rest

/-- Python slice s[a:b] for nonnegative bounds (with the clamping semantics
of slices). -/
def pySlice (s : Str) (a b : Nat) : Str := (s.drop a).take (b - a)

/-- Word characters of the regex classes (ASCII fragment of the w class). -/
def isWordChar (c : Char) : Bool := c.isAlphanum || c = '_'

/-- Value of a decimal digit string.  The scanners below only apply it to
nonempty all-digit strings, so no failure case is needed. -/
def natOfDigits (s : Str) : Nat :=
  s.foldl (fun n c => 10 * n + (c.toNat - '0'.toNat)) 0

/-- Decimal rendering of a natural number (Python str of an int). -/
def natRepr (n : Nat) : Str := (toString n).toList

/-- Python format specifier 03d: zero-pad the decimal form to length three. -/
def pad3 (n : Nat) : Str :=
  let d := natRepr n
  List.replicate (3 - d.length) '0' ++ d

/- ----------------------------------------------------------------------
   utils.py: canonicalize
   ---------------------------------------------------------------------- -/

/-- utils.canonicalize: synthesize a canonical subject-prefixed statement
from a raw requirement body. -/
def canonicalize (subject raw0 : Str) : Str :=
  let raw := pyStrip raw0
  if raw = [] then
    "The ".toList ++ subject ++ " shall comply with unspecified requirements.".toList
  else
    let subjectLower := lowerStr subject
    let rawLower := lowerStr raw
    if (("the ".toList ++ subjectLower).isPrefixOf rawLower
        || (subjectLower ++ " ".toList).isPrefixOf rawLower) then raw
    else if "the ".toList.isPrefixOf rawLower then raw
    else if (isSubstr " shall ".toList rawLower || isSubstr " must ".toList rawLower) then
      raw
    else
      match raw with
      | [] => raw
      | c :: rest => "The ".toList ++ subject ++ " shall ".toList ++ (asciiLower c :: rest)

/- ----------------------------------------------------------------------
   Generic container helpers: insertion-ordered association lists (the
   model of Python dicts) and a stable insertion sort (the model of
   Python list.sort, which is stable).
   ---------------------------------------------------------------------- -/

def alGet {K V : Type} [DecidableEq K] (k : K) : List (K × V) → Option V
  | [] => none
  | p :: rest => if p.1 = k then some p.2 else alGet k rest

/-- Python dict assignment d[k] = v: update in place if present, else append. -/
def alUpsert {K V : Type} [DecidableEq K] (k : K) (v : V) (l : List (K × V)) :
    List (K × V) :=
  if l.any (fun p => p.1 = k) then
    l.map (fun p => if p.1 = k then (k, v) else p)
  else l ++ [(k, v)]

def alValues {K V : Type} (l : List (K × V)) : List V := l.map Prod.snd

def alKeys {K V : Type} (l : List (K × V)) : List K := l.map Prod.fst

def insertBy {α : Type} (lt : α → α → Bool) (x : α) : List α → List α
  | [] => [x]
  | y :: ys => if lt x y then x :: y :: ys else y :: insertBy lt x ys

/-- Stable sort: insert each later element after the equal earlier ones. -/
def stableSortBy {α : Type} (lt : α → α → Bool) (l : List α) : List α :=
  l.foldl (fun acc x => insertBy lt x acc) []

/-- Lexicographic comparison of strings by character code (Python order). -/
def strLt : Str → Str → Bool
  | [], [] => false
  | [], _ :: _ => true
  | _ :: _, [] => false
  | c :: cs, d :: ds => if c.toNat < d.toNat then true
      else if d.toNat < c.toNat then false else strLt cs ds

def strList (l : List String) : List Str := l.map String.toList

def strPairs (l : List (String × String)) : List (Str × Str) :=
  l.map (fun p => (p.1.toList, p.2.toList))

/- ----------------------------------------------------------------------
   Python float model: rationals plus the decimal rendering used by
   f-strings.  All floats the engine manipulates are parsed from short
   decimal literals, for which the Python repr is the trimmed decimal
   form reproduced by ratRepr.  Arithmetic is expressed through mkRat so
   that concrete runs reduce inside the kernel; bridge lemmas below relate
   these operations to the field operations of ℚ.
   ---------------------------------------------------------------------- -/

def ratOfNat (n : Nat) : ℚ := mkRat n 1

def ratAdd (a b : ℚ) : ℚ := mkRat (a.num * b.den + b.num * a.den) (a.den * b.den)

def ratMul (a b : ℚ) : ℚ := mkRat (a.num * b.num) (a.den * b.den)

def ratNeg (a : ℚ) : ℚ := mkRat (-a.num) a.den

def ratDiv (a b : ℚ) : ℚ :=
  if 0 ≤ b.num then mkRat (a.num * b.den) (a.den * b.num.natAbs)
  else mkRat (-(a.num * b.den)) (a.den * b.num.natAbs)

/-- Boolean strict order on ℚ (kernel-reducible). -/
def ratLtB (a b : ℚ) : Bool := Rat.blt a b

def ratLeB (a b : ℚ) : Bool := !Rat.blt b a

def ratOfParts (intPart fracPart : Str) : ℚ :=
  mkRat (natOfDigits intPart * 10 ^ fracPart.length + natOfDigits fracPart)
    (10 ^ fracPart.length)

/-- Minimal number of decimal places of a terminating rational (fuel 40). -/
def decPlaces (q : ℚ) : Nat :=
  ((List.range 40).find? (fun k => 10 ^ k % q.den = 0)).getD 0

/-- Zero-pad a digit string on the left to the given length. -/
def padLeft (k : Nat) (s : Str) : Str := List.replicate (k - s.length) '0' ++ s

/-- Decimal rendering of a nonnegative terminating rational, matching the
Python str of the corresponding float for the magnitudes in scope. -/
def ratReprNonneg (q : ℚ) : Str :=
  let k := decPlaces q
  let n := q.num.natAbs * (10 ^ k / q.den)
  if k = 0 then natRepr n ++ ".0".toList
  else natRepr (n / 10 ^ k) ++ ".".toList ++ padLeft k (natRepr (n % 10 ^ k))

def ratRepr (q : ℚ) : Str :=
  if q.num < 0 then '-' :: ratReprNonneg q else ratReprNonneg q

/-- Model of Python float(): optional sign, decimal digits with an optional
fractional part (the only forms the engine feeds it). -/
def pyParseFloat (s0 : Str) : Option ℚ :=
  let s := pyStrip s0
  let (neg, s1) : Bool × Str :=
    match s with
    | '-' :: r => (true, r)
    | '+' :: r => (false, r)
    | r => (false, r)
  let ds := s1.takeWhile Char.isDigit
  let r1 := s1.dropWhile Char.isDigit
  let core : Option ℚ :=
    match r1 with
    | [] => if ds = [] then none else some (ratOfNat (natOfDigits ds))
    | '.' :: r2 =>
      let fs := r2.takeWhile Char.isDigit
      let r3 := r2.dropWhile Char.isDigit
      if r3 = [] && (ds ≠ [] || fs ≠ []) then some (ratOfParts ds fs)
      else none
    | _ => none
  core.map (fun q => if neg then ratNeg q else q)

/- ----------------------------------------------------------------------
   models.py: AcceptanceCriterion and Requirement.

   Requirement fields that no claim or embedded operation ever reads
   (doc_meta, source_anchor, conflicts, dependencies, page_range,
   parent_id, confidence, id, text, source) are omitted; the shared
   mutable doc_meta dict is modelled by the documentType field of the
   pipeline result.  source_location is represented by the table id it
   may carry (loc.get of table_id, falling back to table), the only
   component consolidation reads.
   ---------------------------------------------------------------------- -/

structure AcceptanceCriterion where
  id : Str
  text : Str
  comparator : Option Str := none
  value : Option ℚ := none
  unit : Option Str := none
  dimension : Option Str := none
deriving DecidableEq, Repr

structure Requirement where
  requirementUid : Str
  sectionPath : List Str
  normativeStrength : Option Str
  canonicalStatement : Str
  requirementRaw : Str
  acceptanceCriteria : List AcceptanceCriterion
  verificationMethod : Option Str
  references : List Str
  subject : Str
  category : Option Str
  tags : List Str
  evidenceQuery : Str
  sourceType : Option Str := none
  sourceTableId : Option Str := none
  isStub : Bool := false
  rawSectionHeader : Option Str := none
deriving DecidableEq, Repr

/- ----------------------------------------------------------------------
   utils.py: unit normalization and numeric criteria extraction.
   ---------------------------------------------------------------------- -/

def NORM_UNITS_MAP : List (Str × Str) := strPairs
  [("°C", "degC"), ("C", "degC"), ("kV/µs", "kV/us"), ("kV/μs", "kV/us"),
   ("µs", "us"), ("μs", "us"), ("V RMS", "V_rms"), ("V RMS)", "V_rms"),
   ("V RMS.", "V_rms"), ("V RMS,", "V_rms"), ("V RMS;", "V_rms"),
   ("V RMS/", "V_rms"), ("V RMS]", "V_rms"), ("kV RMS", "kV_rms"),
   ("V", "V"), ("kV", "kV"), ("kHz", "kHz"), ("Hz", "Hz"), ("rpm", "rpm"),
   ("mm/s", "mm_per_s"), ("m/s2", "m_per_s2"), ("m/s²", "m_per_s2"),
   ("mm", "mm"), ("bar", "bar"), ("%", "percent"), ("dB(A)", "dB(A)")]

def COMPARATOR_MAP : List (Str × Str) := strPairs
  [("<=", "<="), ("≤", "<="), ("<", "<"), (">=", ">="), ("≥", ">="),
   (">", ">"), ("=", "="), ("==", "=")]

def normalize_unit (u : Str) : Str :=
  let v := pyStrip u
  (alGet v NORM_UNITS_MAP).getD v

/-- The comparator alternatives of the numeric pattern, in alternation order. -/
def cmpAlternatives : List Str := strList ["≤", ">=", "≥", "<=", "<", ">", "=", "=="]

/-- The unit alternatives of the numeric pattern, in alternation order. -/
def unitAlternatives : List Str := strList
  ["kV/µs", "kV/μs", "kV/us", "kV RMS", "V RMS", "°C", "C", "V", "kV", "kHz",
   "Hz", "rpm", "mm/s", "m/s²", "m/s2", "mm", "bar", "%", "dB(A)"]

structure NumMatch where
  text : Str
  cmp : Option Str
  intPart : Str
  fracPart : Str
  unit : Option Str
deriving DecidableEq, Repr

/-- Attempt the numeric pattern match at the head of s, with one comparator
alternative fixed (none for the absent optional group). -/
def tryNumWith (s : Str) (cmpAlt : Option Str) : Option NumMatch := do
  let rest ← match cmpAlt with
    | some c => if c.isPrefixOf s then some (s.drop c.length) else none
    | none => some s
  let ws1 := rest.takeWhile pyIsSpace
  let r1 := rest.dropWhile pyIsSpace
  let ds := r1.takeWhile Char.isDigit
  let r2 := r1.dropWhile Char.isDigit
  if ds = [] then none else
  let (dot, fs, r4) : Str × Str × Str :=
    match r2 with
    | '.' :: r3 =>
      let fs := r3.takeWhile Char.isDigit
      if fs = [] then ([], [], r2) else (['.'], fs, r3.dropWhile Char.isDigit)
    | _ => ([], [], r2)
  let ws2 := r4.takeWhile pyIsSpace
  let r5 := r4.dropWhile pyIsSpace
  let unit := unitAlternatives.find? (fun u => u.isPrefixOf r5)
  let unitTxt := unit.getD []
  some { text := (cmpAlt.getD []) ++ ws1 ++ ds ++ dot ++ fs ++ ws2 ++ unitTxt,
         cmp := cmpAlt, intPart := ds, fracPart := fs, unit := unit }

/-- Attempt the numeric pattern at the head of s, trying comparator
alternatives in alternation order and then the absent comparator. -/
def tryNumAt (s : Str) : Option NumMatch :=
  (cmpAlternatives.map some ++ [none]).findSome? (tryNumWith s)

/-- finditer for the numeric pattern: scan left to right, resuming after
each match (every match consumes at least one character). -/
def numScan : Nat → Str → List NumMatch
  | 0, _ => []
  | _, [] => []
  | fuel + 1, c :: rest =>
    match tryNumAt (c :: rest) with
    | some m => m :: numScan fuel ((c :: rest).drop m.text.length)
    | none => numScan fuel rest

/-- utils.extract_numbers_with_units. -/
def extract_numbers_with_units (text : Str) : List AcceptanceCriterion :=
  (numScan (text.length + 1) text).map (fun m =>
    let cmpNorm : Str := match m.cmp with
      | none => "=".toList
      | some raw => (alGet raw COMPARATOR_MAP).getD "=".toList
    let val : ℚ := ratOfParts m.intPart m.fracPart
    let unitNorm : Option Str := m.unit.map normalize_unit
    { id := "numeric-".toList ++ ratRepr val ++ unitNorm.getD [],
      text := m.text, comparator := some cmpNorm, value := some val,
      unit := unitNorm })

/-- utils.find_normative_strength. -/
def find_normative_strength (text : Str) : Option Str :=
  let tl := lowerStr text
  if isSubstr "shall".toList tl || isSubstr "must".toList tl then some "MUST".toList
  else if isSubstr "should".toList tl then some "SHOULD".toList
  else if isSubstr "may".toList tl then some "MAY".toList
  else none

/-- utils.infer_subject always returns its default argument. -/
def infer_subject (_sectionPath : List Str) (_rawText : Str) (dft : Str) : Str := dft

/- ----------------------------------------------------------------------
   utils.py: collect_references.  One scanner per standards pattern; the
   dash-group tail with its optional year suffix is matched greedily with
   the end-of-match word boundary enforced by backtracking over the
   dash groups, exactly the backtracking the Python patterns can perform.
   ---------------------------------------------------------------------- -/

def sumN (l : List Nat) : Nat := l.foldl (fun a b => a + b) 0

/-- True when a word boundary sits before this suffix (the previous
character is a word character in every call site). -/
def boundaryOk (s : Str) : Bool :=
  match s with
  | [] => true
  | c :: _ => !isWordChar c

/-- Lengths of the greedy run of dash-digit groups at the head of s. -/
def dashGroups : Nat → Str → List Nat
  | 0, _ => []
  | fuel + 1, s =>
    match s with
    | '-' :: r =>
      let ds := r.takeWhile Char.isDigit
      if ds = [] then []
      else (1 + ds.length) :: dashGroups fuel (r.drop ds.length)
    | _ => []

/-- Length consumed by the optional colon-year group (exactly four digits
followed by a word boundary), if it matches at the head of s. -/
def colonTake (s : Str) : Option Nat :=
  match s with
  | ':' :: rest =>
    let ds := rest.takeWhile Char.isDigit
    if ds.length = 4 && boundaryOk (rest.drop 4) then some 5 else none
  | _ => none

/-- Backtrack over the dash groups (given reversed, longest first): at each
count try the colon-year group and then the bare boundary. -/
def bestEndRev (wc : Bool) (s : Str) : List Nat → Option Nat
  | [] =>
    match (if wc then colonTake s else none) with
    | some e => some e
    | none => if boundaryOk s then some 0 else none
  | g :: more =>
    let offset := sumN (g :: more)
    let restj := s.drop offset
    match (if wc then (colonTake restj).map (fun k => offset + k) else none) with
    | some e => some e
    | none =>
      if boundaryOk restj then some offset
      else bestEndRev wc s more

/-- Match one of the word-prefixed standards patterns (IEC/ISO with the year
group, DIN/UL without) at the head of s; returns the match length. -/
def refMatchStd (word : Str) (wc : Bool) (s : Str) : Option Nat :=
  if lowerStr (s.take word.length) = word then
    let afterW := s.drop word.length
    let ws := afterW.takeWhile pyIsSpace
    if ws = [] then none else
    let r1 := afterW.drop ws.length
    let ds := r1.takeWhile Char.isDigit
    if ds = [] then none else
    let tail := r1.drop ds.length
    let groups := dashGroups (tail.length + 1) tail
    (bestEndRev wc tail groups.reverse).map
      (fun e => word.length + ws.length + ds.length + e)
  else none

/-- Match the CSA pattern (CSA, space, letters, dash, digit groups). -/
def refMatchCsa (s : Str) : Option Nat :=
  if lowerStr (s.take 3) = "csa".toList then
    let afterW := s.drop 3
    let ws := afterW.takeWhile pyIsSpace
    if ws = [] then none else
    let r1 := afterW.drop ws.length
    let ls := r1.takeWhile Char.isAlpha
    if ls = [] then none else
    match r1.drop ls.length with
    | '-' :: r2 =>
      let ds := r2.takeWhile Char.isDigit
      if ds = [] then none else
      let tail := r2.drop ds.length
      let groups := dashGroups (tail.length + 1) tail
      (bestEndRev false tail groups.reverse).map
        (fun e => 3 + ws.length + ls.length + 1 + ds.length + e)
    | _ => none
  else none

/-- finditer driver for the reference patterns with the leading word
boundary (previous character not a word character). -/
def refScan (matchFn : Str → Option Nat) : Nat → Option Char → Str → List Str
  | 0, _, _ => []
  | _, _, [] => []
  | fuel + 1, prev, c :: rest =>
    let ok := match prev with
      | none => true
      | some p => !isWordChar p
    if ok then
      match matchFn (c :: rest) with
      | some len =>
        ((c :: rest).take len) ::
          refScan matchFn fuel (((c :: rest).take len).getLast?) ((c :: rest).drop len)
      | none => refScan matchFn fuel (some c) rest
    else refScan matchFn fuel (some c) rest

def dedupFirst (l : List Str) : List Str :=
  l.foldl (fun acc r => if acc.contains r then acc else acc ++ [r]) []

/-- utils.collect_references: the five standards patterns in source order,
de-duplicated preserving first occurrence. -/
def collect_references (text : Str) : List Str :=
  let n := text.length + 1
  let iec := refScan (refMatchStd "iec".toList true) n none text
  let iso := refScan (refMatchStd "iso".toList true) n none text
  let din := refScan (refMatchStd "din".toList false) n none text
  let ul := refScan (refMatchStd "ul".toList false) n none text
  let csa := refScan refMatchCsa n none text
  dedupFirst (iec ++ iso ++ din ++ ul ++ csa)

/- ----------------------------------------------------------------------
   utils.py: guess_category and make_evidence_query.
   ---------------------------------------------------------------------- -/

def environmentalKeywords : List Str := strList
  ["ip54", "ip55", "ip56", "enclosure protection", "ingress protection",
   "humidity", "altitude", "environmental", "climate", "weather",
   "corrosion", "coating", "sealing", "ingress", "operating temperature",
   "ambient temperature", "storage temperature"]

def electricalKeywords : List Str := strList
  ["voltage", "current", "power", "electrical", "insulation", "conductor",
   "winding", "stator", "rotor", "terminal", "connection", "earthing",
   "grounding", "isolation", "dielectric", "breakdown", "surge", "overvoltage"]

def mechanicalKeywords : List Str := strList
  ["vibration", "mechanical", "shaft", "bearing", "housing", "mounting",
   "coupling", "alignment", "balancing", "deflection", "forces", "torque",
   "speed", "rpm", "rotation", "clearance", "tolerance", "dimension"]

def controlKeywords : List Str := strList
  ["encoder", "sensor monitoring", "control system", "feedback", "signal",
   "instrumentation", "measurement", "alarm", "trip", "pt100",
   "thermocouple", "pressure sensor", "flow sensor"]

def safetyKeywords : List Str := strList
  ["safety", "emergency", "stop", "shutdown", "interlock",
   "guard", "barrier", "hazard", "risk", "fail-safe", "redundancy"]

/-- utils.guess_category. -/
def guess_category (sectionPath : List Str) (rawText : Str) : Option Str :=
  let combined := lowerStr (List.intercalate " ".toList (sectionPath ++ [rawText]))
  if environmentalKeywords.any (fun k => isSubstr k combined) then some "environmental".toList
  else if electricalKeywords.any (fun k => isSubstr k combined) then some "electrical".toList
  else if mechanicalKeywords.any (fun k => isSubstr k combined) then some "mechanical".toList
  else if controlKeywords.any (fun k => isSubstr k combined) then some "control".toList
  else if safetyKeywords.any (fun k => isSubstr k combined) then some "safety".toList
  else none

def evidenceStopwords : List Str := strList
  ["the", "a", "an", "and", "or", "but", "in", "on", "at", "to", "for",
   "of", "with", "by", "shall", "must", "should", "may", "will", "be",
   "is", "are", "was", "were", "have", "has", "had", "do", "does", "did"]

def evidenceNumericTokens : List Str := strList
  ["ip54", "ip55", "ip56", "kv", "rpm", "hz", "degc"]

def evidenceKeywordSubstrings : List Str := strList
  ["protection", "enclosure", "voltage", "current",
   "vibration", "bearing", "stator", "rotor", "winding"]

/-- Maximal word-character runs (the findall of word tokens). -/
def wordTokensF : Nat → Str → List Str
  | 0, _ => []
  | _, [] => []
  | fuel + 1, c :: r =>
    if isWordChar c then
      ((c :: r).takeWhile isWordChar) :: wordTokensF fuel ((c :: r).dropWhile isWordChar)
    else wordTokensF fuel r

/-- Collapse whitespace runs to single spaces (the model of the re.sub). -/
def collapseWs : Nat → Str → Str
  | 0, _ => []
  | _, [] => []
  | fuel + 1, c :: r =>
    if pyIsSpace c then ' ' :: collapseWs fuel (r.dropWhile pyIsSpace)
    else c :: collapseWs fuel r

/-- utils.make_evidence_query. -/
def make_evidence_query (subject canonical : Str) (refs : List Str) : Str :=
  if pyStrip canonical = [] then subject ++ " requirement".toList
  else
    let tokens := wordTokensF (canonical.length + 1) (lowerStr canonical)
    let contentTokens := tokens.filter
      (fun t => !evidenceStopwords.contains t && t.length > 2)
    let scored := contentTokens.map (fun token =>
      let s1 : Nat := if (match token with
          | c :: _ => c.isDigit
          | [] => false) || evidenceNumericTokens.contains token then 3 else 0
      let s2 : Nat := if evidenceKeywordSubstrings.any (fun k => isSubstr k token) then 2 else 0
      let s3 : Nat :=
        if isSubstr (lowerStr subject) token || isSubstr token (lowerStr subject) then 2 else 0
      (s1 + s2 + s3 + 1, token))
    let sorted := stableSortBy
      (fun a b => decide (b.1 < a.1) || (decide (a.1 = b.1) && strLt a.2 b.2)) scored
    let selected := (sorted.map Prod.snd).take 6
    let numericCriteria := (extract_numbers_with_units canonical).take 2
    let numericParts := numericCriteria.map (fun c =>
      pyStrip ((c.comparator.getD []) ++ " ".toList ++ ratRepr (c.value.getD 0)
        ++ " ".toList ++ (c.unit.getD [])))
    let queryParts := [subject] ++ selected.take 4 ++ numericParts
      ++ (if refs.isEmpty then [] else refs.take 2)
    let query := pyStrip (collapseWs (sumN (queryParts.map List.length) + queryParts.length + 1)
      (List.intercalate " ".toList queryParts))
    if 120 < query.length then
      let safeParts := [subject] ++ selected.take 3
        ++ (if refs.isEmpty then [] else refs.take 1)
      List.intercalate " ".toList safeParts
    else query

/- ----------------------------------------------------------------------
   Input data model (the two external interfaces the core consumes):
   blocks and the table collection.
   ---------------------------------------------------------------------- -/

structure Block where
  btype : Str
  text : Str
  level : Nat := 1
deriving DecidableEq, Repr

structure TableInfo where
  csvData : Str
  columnNames : List Str
deriving DecidableEq, Repr

abbrev Tables := List (Str × TableInfo)

/- ----------------------------------------------------------------------
   CSV parsing: the model of csv.reader over StringIO (excel dialect:
   comma delimiter, double-quote quoting with doubled quotes as escapes,
   quoted cells may span newlines; rows separated by a newline, which is
   the separator every table blob in scope uses).
   ---------------------------------------------------------------------- -/

def csvStep : Nat → Str → Bool → Bool → Str → List Str → List (List Str) →
    List (List Str)
  | 0, _, _, _, fieldRev, rowRev, rowsRev =>
    -- fuel exhaustion cannot happen with fuel > input length; flush anyway
    (rowsRev.reverse) ++ [if rowRev = [] && fieldRev = [] then [] else
      (rowRev.reverse ++ [fieldRev.reverse])]
  | _ + 1, [], inQ, fieldActive, fieldRev, rowRev, rowsRev =>
    let _ := inQ
    if rowRev = [] && !fieldActive then rowsRev.reverse
    else (rowsRev.reverse) ++ [rowRev.reverse ++ [fieldRev.reverse]]
  | fuel + 1, c :: rest, inQ, fieldActive, fieldRev, rowRev, rowsRev =>
    if inQ then
      if c = '"' then
        match rest with
        | '"' :: rest2 => csvStep fuel rest2 true true ('"' :: fieldRev) rowRev rowsRev
        | _ => csvStep fuel rest false true fieldRev rowRev rowsRev
      else csvStep fuel rest true true (c :: fieldRev) rowRev rowsRev
    else
      if c = '"' && fieldRev = [] && !fieldActive then
        csvStep fuel rest true true fieldRev rowRev rowsRev
      else if c = ',' then
        csvStep fuel rest false false [] (fieldRev.reverse :: rowRev) rowsRev
      else if c = '\n' then
        if rowRev = [] && !fieldActive then
          csvStep fuel rest false false [] [] ([] :: rowsRev)
        else
          csvStep fuel rest false false [] []
            ((rowRev.reverse ++ [fieldRev.reverse]) :: rowsRev)
      else csvStep fuel rest false true (c :: fieldRev) rowRev rowsRev

def parseCsv (s : Str) : List (List Str) :=
  csvStep (s.length + 1) s false false [] [] []

/- ----------------------------------------------------------------------
   marker_index.py: the two marker dialect scanners and the MarkerIndex.
   ---------------------------------------------------------------------- -/

structure Marker where
  uid : Str
  kind : Str
  raw : Str
  containerType : Str
  containerIndex : Nat
  tableId : Option Str := none
  cellCoords : Option (Nat × Nat) := none
  start : Option Nat := none
  stop : Option Nat := none
deriving DecidableEq, Repr

/-- Attempt the RS marker pattern (hash, spaces, digits, spaces, dot,
spaces, digits) at the head of s; returns consumed length and the two
digit groups. -/
def tryRsAt (s : Str) : Option (Nat × Str × Str) :=
  match s with
  | '#' :: r0 =>
    let ws1 := r0.takeWhile pyIsSpace
    let r1 := r0.drop ws1.length
    let a := r1.takeWhile Char.isDigit
    if a = [] then none else
    let r2 := r1.drop a.length
    let ws2 := r2.takeWhile pyIsSpace
    let r3 := r2.drop ws2.length
    match r3 with
    | '.' :: r4 =>
      let ws3 := r4.takeWhile pyIsSpace
      let r5 := r4.drop ws3.length
      let b := r5.takeWhile Char.isDigit
      if b = [] then none
      else some (1 + ws1.length + a.length + ws2.length + 1 + ws3.length + b.length, a, b)
    | _ => none
  | _ => none

/-- finditer for the RS marker pattern: (start, stop, raw, group1, group2). -/
def rsScan : Nat → Nat → Str → List (Nat × Nat × Str × Str × Str)
  | 0, _, _ => []
  | _, _, [] => []
  | fuel + 1, pos, c :: rest =>
    match tryRsAt (c :: rest) with
    | some (len, a, b) =>
      (pos, pos + len, (c :: rest).take len, a, b) ::
        rsScan fuel (pos + len) ((c :: rest).drop len)
    | none => rsScan fuel (pos + 1) rest

/-- Greedy dot-digit groups, at most maxc of them. -/
def dotGroups : Nat → Str → List Str
  | 0, _ => []
  | maxc + 1, s =>
    match s with
    | '.' :: r =>
      let ds := r.takeWhile Char.isDigit
      if ds = [] then []
      else ds :: dotGroups maxc (r.drop ds.length)
    | _ => []

/-- Attempt the dotted hierarchical id pattern at the head of s (the leading
word boundary is checked by the caller).  The trailing word boundary is
enforced by dropping the last dot group when a word character follows the
full greedy match, which is the only backtracking the pattern can do. -/
def tryTpsAt (s : Str) : Option (Nat × Str) :=
  let d0 := s.takeWhile Char.isDigit
  if d0 = [] then none else
  let tail := s.drop d0.length
  let groups := dotGroups 5 tail
  if groups = [] then none else
  let consumed := sumN (groups.map (fun g => 1 + g.length))
  let uidOf : List Str → Str := fun gs => d0 ++ (gs.map (fun g => '.' :: g)).flatten
  if boundaryOk (tail.drop consumed) then some (d0.length + consumed, uidOf groups)
  else
    match groups with
    | [] => none
    | [_] => none
    | _ :: _ :: _ =>
      let groups2 := groups.dropLast
      let consumed2 := sumN (groups2.map (fun g => 1 + g.length))
      some (d0.length + consumed2, uidOf groups2)

/-- finditer for the hierarchical id pattern with its leading word
boundary: (start, stop, uid). -/
def tpsScan : Nat → Option Char → Nat → Str → List (Nat × Nat × Str)
  | 0, _, _, _ => []
  | _, _, _, [] => []
  | fuel + 1, prev, pos, c :: rest =>
    let ok := match prev with
      | none => true
      | some p => !isWordChar p
    if ok then
      match tryTpsAt (c :: rest) with
      | some (len, u) =>
        (pos, pos + len, u) ::
          tpsScan fuel (((c :: rest).take len).getLast?) (pos + len) ((c :: rest).drop len)
      | none => tpsScan fuel (some c) (pos + 1) rest
    else tpsScan fuel (some c) (pos + 1) rest

/-- The RS uid normalization of marker_index.py: zero-pad the integer part
to three digits, int-normalize the sub-index. -/
def rsUidOf (a b : Str) : Str :=
  '#' :: pad3 (natOfDigits a) ++ '.' :: natRepr (natOfDigits b)

abbrev SeenKey := Str × Str × Str × Nat × Option Str × Nat

/-- State of the MarkerIndex builder: markers in insertion order plus the
seen-key set. -/
structure MarkerState where
  markers : List Marker
  seen : List SeenKey
deriving Repr

def msAdd (st : MarkerState) (key : SeenKey) (m : Marker) : MarkerState :=
  if st.seen.contains key then st
  else { markers := st.markers ++ [m], seen := st.seen ++ [key] }

/-- MarkerIndex.scan_blocks: paragraph blocks only; RS markers first, then
hierarchical ids not immediately preceded by a hash. -/
def scanBlocks (blocks : List Block) (st0 : MarkerState) : MarkerState :=
  (blocks.enum).foldl (fun st (i, blk) =>
    if blk.btype = "paragraph".toList then
      let text := blk.text
      let st1 := (rsScan (text.length + 1) 0 text).foldl (fun st m =>
        let (s, e, whole, a, b) := m
        let uid := rsUidOf a b
        msAdd st ("RS".toList, uid, "paragraph".toList, i, none, s)
          { uid := uid, kind := "RS".toList, raw := whole,
            containerType := "paragraph".toList, containerIndex := i,
            start := some s, stop := some e }) st
      (tpsScan (text.length + 1) none 0 text).foldl (fun st m =>
        let (s, e, uid) := m
        if 0 < s && text.getD (s - 1) ' ' = '#' then st
        else
          msAdd st ("TPS".toList, uid, "paragraph".toList, i, none, s)
            { uid := uid, kind := "TPS".toList, raw := uid,
              containerType := "paragraph".toList, containerIndex := i,
              start := some s, stop := some e }) st1
    else st) st0

/-- MarkerIndex.scan_tables: every cell of every csv row, stripped; the
hierarchical ids are skipped when a hash occurs in the three characters
ending at the match start. -/
def scanTables (tables : Tables) (st0 : MarkerState) : MarkerState :=
  tables.foldl (fun st (tableId, tinfo) =>
    if tinfo.csvData = [] then st
    else
      let rows := parseCsv tinfo.csvData
      (rows.enum).foldl (fun st (rIndex, row) =>
        let cells := row.map pyStrip
        (cells.enum).foldl (fun st (cIndex, cell) =>
          let st1 := (rsScan (cell.length + 1) 0 cell).foldl (fun st m =>
            let (s, e, _whole, a, b) := m
            let uid := rsUidOf a b
            msAdd st ("RS".toList, uid, "table_cell".toList, rIndex, some tableId, cIndex)
              { uid := uid, kind := "RS".toList, raw := (cell.drop s).take (e - s),
                containerType := "table_cell".toList, containerIndex := rIndex,
                tableId := some tableId, cellCoords := some (rIndex, cIndex),
                start := some s, stop := some e }) st
          (tpsScan (cell.length + 1) none 0 cell).foldl (fun st m =>
            let (s, e, uid) := m
            if isSubstr "#".toList (pySlice cell (s - 2) (s + 1)) then st
            else
              msAdd st ("TPS".toList, uid, "table_cell".toList, rIndex, some tableId, cIndex)
                { uid := uid, kind := "TPS".toList, raw := uid,
                  containerType := "table_cell".toList, containerIndex := rIndex,
                  tableId := some tableId, cellCoords := some (rIndex, cIndex),
                  start := some s, stop := some e }) st1) st) st) st0

/-- The sort key order of MarkerIndex.sort. -/
def markerLt (m1 m2 : Marker) : Bool :=
  let t1 := m1.tableId.getD []
  let t2 := m2.tableId.getD []
  strLt m1.containerType m2.containerType ||
  (decide (m1.containerType = m2.containerType) &&
    (strLt t1 t2 ||
    (decide (t1 = t2) &&
      (decide (m1.containerIndex < m2.containerIndex) ||
      (decide (m1.containerIndex = m2.containerIndex) &&
        decide (m1.start.getD 0 < m2.start.getD 0))))))

/-- marker_index.build_marker_index: scan blocks, scan tables, sort. -/
def build_marker_index (blocks : List Block) (tables : Tables) : List Marker :=
  let st := scanTables tables (scanBlocks blocks { markers := [], seen := [] })
  stableSortBy markerLt st.markers

def rs_count (idx : List Marker) : Nat :=
  (idx.filter (fun m => m.kind = "RS".toList)).length

def tps_count (idx : List Marker) : Nat :=
  (idx.filter (fun m => m.kind = "TPS".toList)).length

abbrev ContKey := Str × Nat × Option Str

/-- MarkerIndex.by_container: insertion-ordered buckets. -/
def by_container (idx : List Marker) : List (ContKey × List Marker) :=
  idx.foldl (fun buckets m =>
    let key : ContKey := (m.containerType, m.containerIndex, m.tableId)
    match alGet key buckets with
    | some l => alUpsert key (l ++ [m]) buckets
    | none => buckets ++ [(key, [m])]) []

/- ----------------------------------------------------------------------
   segmentation.py: helpers shared by the builders.
   ---------------------------------------------------------------------- -/

def pyRstrip (s : Str) : Str := List.rdropWhile pyIsSpace s

def pyRstripChars (chars : List Char) (s : Str) : Str :=
  List.rdropWhile (fun c => chars.contains c) s

/-- Python str.splitlines restricted to newline separators (every cell blob
in scope uses them); trailing carriage returns are removed by the rstrip
each caller applies. -/
def splitLines (s : Str) : List Str := s.splitOn '\n'

/-- Sort markers of one container by their start offset (list.sort is
stable, as is this insertion sort). -/
def sortByStart (ms : List Marker) : List Marker :=
  stableSortBy (fun m1 m2 => decide (m1.start.getD 0 < m2.start.getD 0)) ms

/-- segmentation.canonicalize_tps_uid (the helper nested inside
build_tps_requirements_from_markers): keep only the first two components,
zero-pad the first to three digits and int-normalize the second (0 when
the id has a single component). -/
def canonicalize_tps_uid (rawUid : Str) : Str :=
  let parts := rawUid.splitOn '.'
  match parts with
  | [] => rawUid
  | p0 :: restParts =>
    let first := if p0 ≠ [] && p0.all Char.isDigit then pad3 (natOfDigits p0) else p0
    let second := match restParts with
      | [] => "0".toList
      | p1 :: _ => if p1 ≠ [] && p1.all Char.isDigit then natRepr (natOfDigits p1) else p1
    '#' :: (first ++ '.' :: second)

/-- segmentation._stub_req. -/
def stub_req (marker : Marker) (sourceType : Str) : Requirement :=
  { requirementUid := "RS:".toList ++ marker.uid,
    sectionPath := [],
    normativeStrength := none,
    canonicalStatement := "Requirement ".toList ++ marker.uid,
    requirementRaw := marker.raw,
    acceptanceCriteria := [],
    verificationMethod := none,
    references := [],
    subject := "generator".toList,
    category := none,
    tags := [],
    evidenceQuery := "requirement ".toList ++ marker.uid,
    sourceType := some sourceType,
    sourceTableId := marker.tableId,
    isStub := true,
    rawSectionHeader := none }

def defaultMarker : Marker :=
  { uid := [], kind := [], raw := [], containerType := [], containerIndex := 0 }

def metaPrefixes : List Str :=
  strList ["Motivation:", "Source:", "Verification method:", "Conflicts:"]

/-- The enrichment of one RS table cell (the table_cell branch of
build_requirements_from_markers, after the cell text is resolved). -/
def rsCellRequirement (m : Marker) (headerRow : List Str) (cellText : Str) :
    Requirement :=
  let lines := (splitLines cellText).map pyRstrip
  let metaIndex :=
    match (lines.enum.find? (fun p => metaPrefixes.any (fun q => q.isPrefixOf p.2))) with
    | some p => p.1
    | none => lines.length
  let contentLines := lines.take metaIndex
  let joined := pyStrip (List.intercalate "\n".toList (contentLines.filter (fun l => l ≠ [])))
  let requirementRaw := if joined = [] then pyStrip (lines.headD []) else joined
  let verificationMethod :=
    (lines.find? (fun ln => "verification method:".toList.isPrefixOf (lowerStr ln))).map
      (fun ln =>
        let afterColon := (ln.dropWhile (fun c => c ≠ ':')).drop 1
        pyRstripChars ['.', ' '] (pyStrip afterColon))
  let normative := find_normative_strength requirementRaw
  let acList := extract_numbers_with_units requirementRaw
  let refs := collect_references cellText
  let subject := infer_subject [] requirementRaw "generator".toList
  let category := guess_category [] requirementRaw
  let canonical := canonicalize subject requirementRaw
  let evQuery := make_evidence_query subject canonical refs
  let rawSectionHeader :=
    match headerRow with
    | [] => none
    | h0 :: _ =>
      let hdr0 := pyStrip h0
      if hdr0 ≠ [] && lowerStr hdr0 ≠ lowerStr requirementRaw then some hdr0 else none
  { requirementUid := "RS:".toList ++ m.uid,
    sectionPath := match rawSectionHeader with
      | some h => [h]
      | none => [],
    normativeStrength := normative,
    canonicalStatement := canonical,
    requirementRaw := requirementRaw,
    acceptanceCriteria := acList,
    verificationMethod := verificationMethod,
    references := refs,
    subject := subject,
    category := category,
    tags := [],
    evidenceQuery := evQuery,
    sourceType := some "table_cell".toList,
    sourceTableId := m.tableId,
    isStub := false,
    rawSectionHeader := rawSectionHeader }

/-- segmentation.build_requirements_from_markers: the RS (dialect-A)
marker-first builder.  Paragraph containers are sliced between marker
offsets; table-cell containers resolve the owning row. -/
def build_requirements_from_markers (idx : List Marker) (blocks : List Block)
    (tables : Option Tables) : List Requirement :=
  (by_container idx).foldl (fun acc bucket =>
    let ((ctype, cindex, _tid), markers) := bucket
    if ctype = "paragraph".toList then
      if blocks.length ≤ cindex then acc
      else
        let text := (blocks.getD cindex { btype := [], text := [] }).text
        let rsMarkers := markers.filter (fun m => m.kind = "RS".toList)
        if rsMarkers = [] then acc
        else
          let sorted := sortByStart rsMarkers
          acc ++ (sorted.enum.map (fun (i, m) =>
            let startText := m.stop.getD 0
            let endText := match sorted.get? (i + 1) with
              | some nxt => nxt.start.getD 0
              | none => text.length
            let raw := pyStrip (pySlice text startText endText)
            if raw = [] then stub_req m "paragraph".toList
            else
              let normative := find_normative_strength raw
              let acList := extract_numbers_with_units raw
              let refs := collect_references raw
              let subject := infer_subject [] raw "generator".toList
              let category := guess_category [] raw
              let canonical := canonicalize subject raw
              let evQuery := make_evidence_query subject canonical refs
              { requirementUid := "RS:".toList ++ m.uid,
                sectionPath := [],
                normativeStrength := normative,
                canonicalStatement := canonical,
                requirementRaw := raw,
                acceptanceCriteria := acList,
                verificationMethod := none,
                references := refs,
                subject := subject,
                category := category,
                tags := [],
                evidenceQuery := evQuery,
                sourceType := some "paragraph".toList,
                sourceTableId := none,
                isStub := false,
                rawSectionHeader := none }))
    else if ctype = "table_cell".toList then
      match tables with
      | none =>
        acc ++ ((markers.filter (fun m => m.kind = "RS".toList)).map
          (fun m => stub_req m "table_cell".toList))
      | some tbls =>
        let tableId := (markers.headD defaultMarker).tableId
        let csvData := match tableId with
          | some t => ((alGet t tbls).map (fun ti => ti.csvData)).getD []
          | none => []
        if csvData = [] then
          acc ++ ((markers.filter (fun m => m.kind = "RS".toList)).map
            (fun m => stub_req m "table_cell".toList))
        else
          let rows := parseCsv csvData
          let headerRow := rows.headD []
          acc ++ ((markers.filter (fun m => m.kind = "RS".toList)).map (fun m =>
            match m.cellCoords with
            | none => stub_req m "table_cell".toList
            | some (rowIdx, colIdx) =>
              if rows.length ≤ rowIdx then stub_req m "table_cell".toList
              else
                let row := rows.getD rowIdx []
                let cellText0 := if colIdx < row.length then pyStrip (row.getD colIdx []) else []
                let cellText :=
                  if (cellText0 = [] || "#".toList.isPrefixOf cellText0) && 0 < row.length then
                    pyStrip (row.headD [])
                  else cellText0
                if cellText = [] then stub_req m "table_cell".toList
                else rsCellRequirement m headerRow cellText))
    else acc) []

/- ----------------------------------------------------------------------
   segmentation.py: the TPS (dialect-B) marker-first builder.
   ---------------------------------------------------------------------- -/

def countDots (s : Str) : Nat := s.count '.'

/-- The per-uid marker selection of build_tps_requirements_from_markers:
TPS markers with at most four dots, first occurrence per raw uid. -/
def tpsUidMarkers (idx : List Marker) : List (Str × Marker) :=
  idx.foldl (fun acc m =>
    if m.kind ≠ "TPS".toList then acc
    else if 4 < countDots m.uid then acc
    else if (alGet m.uid acc).isSome then acc
    else acc ++ [(m.uid, m)]) []

/-- The last column index whose lowered stripped header equals the name
(the source loop overwrites on every later match). -/
def lastColNamed (columnsLower : List Str) (name : Str) : Option Nat :=
  (columnsLower.enum.filter (fun p => p.2 = name)).getLast?.map Prod.fst

/-- One requirement from a paragraph segment between two TPS markers. -/
def tpsParagraphRequirement (cindex : Nat) (pm : Marker) (rawSegment : Str) :
    Requirement :=
  let acList := extract_numbers_with_units rawSegment
  let refs := collect_references rawSegment
  let subj := infer_subject [] rawSegment "generator".toList
  let cat := guess_category [] rawSegment
  let canonicalStmt := canonicalize subj rawSegment
  let ev := make_evidence_query subj canonicalStmt refs
  let _ := cindex
  { requirementUid := "TPS:".toList ++ canonicalize_tps_uid pm.uid,
    sectionPath := [],
    normativeStrength := find_normative_strength rawSegment,
    canonicalStatement := canonicalStmt,
    requirementRaw := rawSegment,
    acceptanceCriteria := acList,
    verificationMethod := none,
    references := refs,
    subject := subj,
    category := cat,
    tags := [],
    evidenceQuery := ev,
    sourceType := some "paragraph".toList,
    sourceTableId := none,
    isStub := false,
    rawSectionHeader := none }

/-- segmentation.build_tps_requirements_from_markers. -/
def build_tps_requirements_from_markers (idx : List Marker) (blocks : List Block)
    (tables : Option Tables) : List Requirement :=
  let byCont := by_container idx
  let tablesCache : List (Str × List (List Str)) :=
    (tables.getD []).foldl (fun acc (tid, info) =>
      if info.csvData = [] then acc else acc ++ [(tid, parseCsv info.csvData)]) []
  (tpsUidMarkers idx).foldl (fun acc (rawUid, marker) =>
    let canonUid := canonicalize_tps_uid rawUid
    if marker.containerType = "paragraph".toList then
      if blocks.length ≤ marker.containerIndex then acc
      else
        let paragraphMarkers := sortByStart
          (((alGet ("paragraph".toList, marker.containerIndex, (none : Option Str)) byCont).getD
            []).filter (fun m => m.kind = "TPS".toList))
        let text := (blocks.getD marker.containerIndex { btype := [], text := [] }).text
        acc ++ ((paragraphMarkers.enum.filterMap (fun (i, pm) =>
          let start := pm.stop.getD 0
          let stop := match paragraphMarkers.get? (i + 1) with
            | some nxt => nxt.start.getD 0
            | none => text.length
          let rawSegment := pyStrip (pySlice text start stop)
          if rawSegment = [] then none
          else some (tpsParagraphRequirement marker.containerIndex pm rawSegment))))
    else if marker.containerType = "table_cell".toList &&
        (match marker.tableId with
          | some t => (alGet t tablesCache).isSome
          | none => false) then
      let rows := (marker.tableId.bind (fun t => alGet t tablesCache)).getD []
      let rowIdx := marker.containerIndex
      if rows.length ≤ rowIdx then acc
      else
        let row := rows.getD rowIdx []
        let header := rows.headD []
        let columnsLower := header.map (fun c => lowerStr (pyStrip c))
        let reqColIdx : Nat :=
          match (columnsLower.enum.find? (fun p =>
            p.2 = "requirement".toList || p.2 = "description".toList || p.2 = "text".toList)) with
          | some p => p.1
          | none =>
            match (row.enum.filter (fun p => p.2 ≠ [] && !isSubstr marker.uid p.2)).head? with
            | some p => p.1
            | none => 0
        let requirementRaw0 := pyStrip (row.getD reqColIdx [])
        let requirementRaw :=
          if requirementRaw0 = marker.uid && reqColIdx + 1 < row.length then
            pyStrip (row.getD (reqColIdx + 1) [])
          else requirementRaw0
        let acList0 := extract_numbers_with_units requirementRaw
        let lslIdx := lastColNamed columnsLower "lsl".toList
        let targetIdx := lastColNamed columnsLower "target".toList
        let uslIdx := lastColNamed columnsLower "usl".toList
        let addNumeric : Option Nat → Str → List AcceptanceCriterion := fun oidx cmpSymbol =>
          match oidx with
          | none => []
          | some i =>
            if i < row.length then
              match pyParseFloat (row.getD i []) with
              | some v =>
                [{ id := canonUid ++ '-' :: cmpSymbol,
                   text := cmpSymbol ++ ' ' :: ratRepr v,
                   comparator := some cmpSymbol, value := some v, unit := none }]
              | none => []
            else []
        let acList :=
          if lslIdx.isSome || targetIdx.isSome || uslIdx.isSome then
            acList0 ++ addNumeric lslIdx ">=".toList ++ addNumeric targetIdx "=".toList
              ++ addNumeric uslIdx "<=".toList
          else acList0
        let refs := collect_references (List.intercalate " ".toList row)
        let subj := infer_subject [] requirementRaw "generator".toList
        let cat := guess_category [] requirementRaw
        let canonicalStmt := canonicalize subj
          (if requirementRaw = [] then canonUid else requirementRaw)
        let ev := make_evidence_query subj canonicalStmt refs
        acc ++
          [{ requirementUid := "TPS:".toList ++ canonUid,
             sectionPath := [],
             normativeStrength := find_normative_strength requirementRaw,
             canonicalStatement := canonicalStmt,
             requirementRaw := if requirementRaw = [] then marker.raw else requirementRaw,
             acceptanceCriteria := acList,
             verificationMethod := none,
             references := refs,
             subject := subj,
             category := cat,
             tags := [],
             evidenceQuery := ev,
             sourceType := some "table_cell".toList,
             sourceTableId := marker.tableId,
             isStub := requirementRaw = [],
             rawSectionHeader := none }]
    else acc) []

/- ----------------------------------------------------------------------
   segmentation.py: build_tps_requirements_from_id_tables.
   ---------------------------------------------------------------------- -/

/-- The hierarchical id pattern of the ID-table extractor (two to five
dot-separated integer components, matching the whole cell). -/
def isHierId (s : Str) : Bool :=
  let parts := s.splitOn '.'
  decide (2 ≤ parts.length) && decide (parts.length ≤ 5) &&
    parts.all (fun p => p ≠ [] && p.all Char.isDigit)

structure ColMap where
  id : Option Nat := none
  req : Option Nat := none
  documentation : Option Nat := none
  description : Option Nat := none
  references : Option Nat := none
  comments : Option Nat := none
deriving Repr

/-- The detect_columns helper of build_tps_requirements_from_id_tables. -/
def detect_columns (header : List Str) : ColMap :=
  ((header.map (fun c => lowerStr (pyStrip c))).enum).foldl (fun m (idx, name) =>
    if (name = "id".toList || name = "req id".toList || name = "requirement id".toList)
        && m.id.isNone then
      { m with id := some idx }
    else if (name = "requirement".toList || name = "requirements".toList)
        && m.req.isNone then
      { m with req := some idx }
    else if name = "documentation".toList && m.documentation.isNone then
      { m with documentation := some idx }
    else if name = "description".toList && m.description.isNone then
      { m with description := some idx }
    else if isSubstr "reference".toList name && m.references.isNone then
      { m with references := some idx }
    else if isSubstr "comment".toList name && m.comments.isNone then
      { m with comments := some idx }
    else m) {}

/-- The dynamic id-column detection: per column, count hierarchical matches
among nonempty cells; qualify at three nonempty, two matches and a sixty
percent match share; the winner is the lexicographic maximum of
(matches, column index). -/
def dynamicIdColumn (header : List Str) (dataRows : List (List Str)) : Option Nat :=
  let scores := (List.range header.length).filterMap (fun ci =>
    let cells := dataRows.filterMap (fun r =>
      if r.length ≤ ci then none
      else
        let cell := pyStrip (r.getD ci [])
        if cell = [] then none else some cell)
    let nonEmpty := cells.length
    let hits := (cells.filter isHierId).length
    if 3 ≤ nonEmpty && 2 ≤ hits && 3 * nonEmpty ≤ 5 * hits then
      some (hits, ci)
    else none)
  (scores.foldl (fun best p =>
    match best with
    | none => some p
    | some q => if q.1 < p.1 || (q.1 = p.1 && q.2 < p.2) then some p else some q) none).map
    Prod.snd

/-- One row of the ID-table extractor. -/
def idTableRowRequirement (tableId : Str) (cols : ColMap) (idCol : Nat)
    (rIndex : Nat) (row : List Str) : Option Requirement :=
  if row.length ≤ idCol then none
  else
    let rawId := pyStrip (row.getD idCol [])
    if rawId = [] || !isHierId rawId then none
    else
      let fromCol : Option Nat → Option Str := fun o =>
        match o with
        | some c => if c < row.length then some (pyStrip (row.getD c [])) else none
        | none => none
      let reqText0 : Str :=
        match fromCol cols.req with
        | some t => t
        | none =>
          match fromCol cols.description with
          | some t => t
          | none => (fromCol cols.documentation).getD []
      let reqText : Str :=
        if reqText0 = [] then
          let candidates := (row.enum.filter (fun p =>
            p.1 ≠ idCol && p.2 ≠ [] && pyStrip p.2 ≠ [])).map (fun p => (p.2.length, p.2))
          match candidates.foldl (fun best p =>
            match best with
            | none => some p
            | some q => if q.1 < p.1 then some p else some q) none with
          | some q => pyStrip q.2
          | none => []
        else reqText0
      if reqText = [] then none
      else
        let refParts := (strList ["references", "comments"]).foldl (fun acc key =>
          let o := if key = "references".toList then cols.references else cols.comments
          match o with
          | some c =>
            if c < row.length then
              let v := pyStrip (row.getD c [])
              if v ≠ [] && v ≠ "-".toList && v ≠ "—".toList then acc ++ [v] else acc
            else acc
          | none => acc) []
        let fullRowText := List.intercalate " ".toList (row.filter (fun c => c ≠ []))
        let refs := collect_references
          (List.intercalate " ".toList refParts ++ ' ' :: fullRowText)
        let acList := extract_numbers_with_units reqText
        let subj := infer_subject [] reqText "generator".toList
        let cat := guess_category [] reqText
        let canonicalStmt := canonicalize subj reqText
        let evQuery := make_evidence_query subj canonicalStmt refs
        let _ := rIndex
        some
          { requirementUid := "TPS:".toList ++ rawId,
            sectionPath := [],
            normativeStrength := find_normative_strength reqText,
            canonicalStatement := canonicalStmt,
            requirementRaw := reqText,
            acceptanceCriteria := acList,
            verificationMethod := none,
            references := refs,
            subject := subj,
            category := cat,
            tags := [],
            evidenceQuery := evQuery,
            sourceType := some "table_row".toList,
            sourceTableId := some tableId,
            isStub := false,
            rawSectionHeader := none }

/-- segmentation.build_tps_requirements_from_id_tables (the id_report
argument only feeds a diagnostic file and is not modelled). -/
def build_tps_requirements_from_id_tables (tables : Option Tables) :
    List Requirement :=
  match tables with
  | none => []
  | some tbls =>
    tbls.foldl (fun acc (tableId, tinfo) =>
      if tinfo.csvData = [] then acc
      else
        let rows := parseCsv tinfo.csvData
        if rows = [] then acc
        else
          let header := rows.headD []
          let cols0 := detect_columns header
          let cols :=
            match cols0.id with
            | some _ => cols0
            | none =>
              match dynamicIdColumn header (rows.drop 1) with
              | some ci => { cols0 with id := some ci }
              | none => cols0
          match cols.id with
          | none => acc
          | some idCol =>
            let dataIds := (rows.drop 1).filterMap (fun r =>
              if idCol < r.length then some (pyStrip (r.getD idCol [])) else none)
            if !(dataIds.any (fun d => d ≠ [] && isHierId d)) then acc
            else
              acc ++ ((rows.drop 1).enum.filterMap (fun (i, row) =>
                idTableRowRequirement tableId cols idCol (i + 1) row))) []

/- ----------------------------------------------------------------------
   segmentation.py: consolidate_and_filter_tps.
   ---------------------------------------------------------------------- -/

/-- Word-boundary search for any of the given lowercase words in the
lowered text (the search of the norm keyword pattern). -/
def wordSearchAux (words : List Str) : Nat → Option Char → Str → Bool
  | 0, _, _ => false
  | _, _, [] => false
  | fuel + 1, prev, c :: rest =>
    let okPrev := match prev with
      | none => true
      | some p => !isWordChar p
    if okPrev && words.any (fun w =>
        w.isPrefixOf (c :: rest) && boundaryOk ((c :: rest).drop w.length)) then true
    else wordSearchAux words fuel (some c) rest

def normKwWords : List Str := strList ["shall", "must", "should", "will"]

/-- The search of norm_kw_re (obligation keywords as whole words). -/
def normKwSearch (text : Str) : Bool :=
  wordSearchAux normKwWords (text.length + 1) none (lowerStr text)

/-- The full-string numeric/punctuation class of numeric_only_re. -/
def numericOnlyMatch (s : Str) : Bool :=
  s ≠ [] && s.all (fun c => c.isDigit || pyIsSpace c ||
    c = '.' || c = ',' || c = ':' || c = '+' || c = '-' || c = '*' || c = '/' ||
    c = '(' || c = ')')

/-- The degenerate pattern of gen_shall_num_re: the generator shall,
whitespace, then only digits and light punctuation to the end. -/
def genShallNumMatch (s : Str) : Bool :=
  let t := lowerStr s
  let pre := "the generator shall".toList
  if pre.isPrefixOf t then
    let rest := t.drop pre.length
    (List.range (rest.length)).any (fun j =>
      0 < j && (rest.take j).all pyIsSpace &&
      rest.drop j ≠ [] && (rest.drop j).all (fun c =>
        c.isDigit || c = ' ' || c = '.' || c = ',' || c = ':' || c = '+' || c = '-'))
  else false

/-- deep_hier_id_re: a TPS uid with four to seven dot-separated integer
components. -/
def deepHierIdMatch (uid : Str) : Bool :=
  if "TPS:".toList.isPrefixOf uid then
    let parts := (uid.drop 4).splitOn '.'
    decide (4 ≤ parts.length) && decide (parts.length ≤ 7) &&
      parts.all (fun p => p ≠ [] && p.all Char.isDigit)
  else false

/-- Maximal alphabetic runs (the findall of alphabetic words). -/
def alphaWordsF : Nat → Str → List Str
  | 0, _ => []
  | _, [] => []
  | fuel + 1, c :: r =>
    if c.isAlpha then
      ((c :: r).takeWhile Char.isAlpha) :: alphaWordsF fuel ((c :: r).dropWhile Char.isAlpha)
    else alphaWordsF fuel r

def measurementVocab : List Str := strList
  ["frequency", "acceleration", "flow", "temperature", "density", "capacity",
   "conductivity", "viscosity", "pressure"]

/-- The table ids whose column names are dominated by measurement
vocabulary. -/
def measurementTables (tables : Option Tables) : List Str :=
  (tables.getD []).foldl (fun acc (tid, tinfo) =>
    let lower := tinfo.columnNames.map lowerStr
    let hits := (lower.filter (fun h => measurementVocab.any (fun w => isSubstr w h))).length
    if lower ≠ [] && max 2 (lower.length / 2) ≤ hits then acc ++ [tid] else acc) []

/-- The per-candidate retention decision of consolidate_and_filter_tps
(the loop only ever appends or skips, so it is a predicate). -/
def tpsKeep (mtables : List Str) (r : Requirement) : Bool :=
  let raw := pyStrip r.requirementRaw
  let uid := r.requirementUid
  if r.sourceType = some "table_row".toList then true
  else if r.sourceType = some "plaintext_block".toList && deepHierIdMatch uid then true
  else if r.sourceType = some "docx2python_paragraph".toList
      || r.sourceType = some "docx2python_table_row".toList then true
  else
    let dropMeasurement :=
      (r.sourceType = some "table_cell".toList || r.sourceType = some "table_row".toList) &&
      (match r.sourceTableId with
        | some tid => mtables.contains tid
        | none => false) && !normKwSearch raw
    if dropMeasurement then false
    else if numericOnlyMatch raw then false
    else if genShallNumMatch raw then false
    else if !normKwSearch raw && (alphaWordsF (raw.length + 1) raw).length < 3 then false
    else true

/-- The deduplication score of consolidate_and_filter_tps. -/
def tpsScore (r : Requirement) : Nat :=
  r.requirementRaw.length + (if normKwSearch r.requirementRaw then 50 else 0) +
    (if r.normativeStrength.isSome then 20 else 0)

/-- The best-per-uid deduplication dict (Python dict: first-seen key order,
values overwritten when a strictly higher score arrives). -/
def tpsBest (filtered : List Requirement) : List (Str × Requirement) :=
  filtered.foldl (fun best r =>
    match alGet r.requirementUid best with
    | none => best ++ [(r.requirementUid, r)]
    | some prev =>
      if tpsScore prev < tpsScore r then alUpsert r.requirementUid r best else best) []

/-- segmentation.consolidate_and_filter_tps. -/
def consolidate_and_filter_tps (requirements : List Requirement)
    (tables : Option Tables) : List Requirement :=
  if requirements = [] then requirements
  else
    let mtables := measurementTables tables
    alValues (tpsBest (requirements.filter (tpsKeep mtables)))

/- ----------------------------------------------------------------------
   extraction/classifier.py: classify_document.
   ---------------------------------------------------------------------- -/

def RS_KEYWORDS : List Str :=
  strList ["REQUIREMENT SPECIFICATION", "REQUIREMENTS SPECIFICATION"]

def TPS_KEYWORDS : List Str :=
  strList ["TECHNICAL PURCHASE SPECIFICATION", "TPS"]

/-- Count of inline marker_pattern matches (hash, spaces, digits). -/
def markerCountScan : Nat → Str → Nat
  | 0, _ => 0
  | _, [] => 0
  | fuel + 1, c :: rest =>
    let m : Option Nat :=
      if c = '#' then
        let ws := rest.takeWhile pyIsSpace
        let ds := (rest.drop ws.length).takeWhile Char.isDigit
        if ds = [] then none else some (1 + ws.length + ds.length)
      else none
    match m with
    | some len => 1 + markerCountScan fuel ((c :: rest).drop len)
    | none => markerCountScan fuel rest

/-- Count of full RS-style marker matches (used by the hybrid passes). -/
def rsStyleCount : Nat → Str → Nat
  | 0, _ => 0
  | _, [] => 0
  | fuel + 1, c :: rest =>
    match tryRsAt (c :: rest) with
    | some (len, _, _) => 1 + rsStyleCount fuel ((c :: rest).drop len)
    | none => rsStyleCount fuel rest

/-- Python round to three decimals, modelled as decimal half-up rounding
(the claims do not depend on the tie-breaking of binary float rounding). -/
def round3 (q : ℚ) : ℚ :=
  mkRat (Rat.floor (ratAdd (ratMul q (ratOfNat 1000)) (mkRat 1 2))) 1000

/-- The classifier result; the features mapping of the source is a
diagnostic payload never read by the engine and is not modelled. -/
structure DocumentProfile where
  docType : Str
  confidence : ℚ
deriving DecidableEq, Repr

def classifierEps : ℚ := mkRat 1 1000000

/-- The RS evidence score of classify_document. -/
def rs_score_of (blocks : List Block) (midx : Option (List Marker))
    (filename : Option Str) : ℚ :=
  let textSamples := (blocks.take 80).filterMap
    (fun b => if b.text = [] then none else some b.text)
  let joinedUpper := upperStr (List.intercalate "\n".toList textSamples)
  let rsHits := (RS_KEYWORDS.filter (fun kw => isSubstr kw joinedUpper)).length
  let markerCount := markerCountScan (joinedUpper.length + 1) joinedUpper
  let base := ratAdd (ratOfNat rsHits) (ratDiv (ratOfNat markerCount) (ratOfNat 40))
  let withIdx := match midx with
    | some idx => ratAdd base (ratDiv (ratOfNat (rs_count idx)) (ratOfNat 60))
    | none => base
  let withFn := match filename with
    | some fn =>
      let fnUp := upperStr fn
      if isSubstr " REQUIREMENT ".toList (' ' :: fnUp ++ [' '])
          || "RS".toList.isPrefixOf fnUp
          || isSubstr "REQUIREMENT SPECIFICATION".toList fnUp then
        ratAdd withIdx (mkRat 5 2)
      else withIdx
    | none => withIdx
  let rsIdx := match midx with
    | some idx => rs_count idx
    | none => 0
  let tpsIdxOrOne := match midx with
    | some idx => if tps_count idx = 0 then 1 else tps_count idx
    | none => 1
  if 30 ≤ rsIdx && 2 * tpsIdxOrOne ≤ rsIdx then ratAdd withFn (ratOfNat 4)
  else if 20 ≤ markerCount then ratAdd withFn (ratOfNat 5)
  else withFn

/-- The TPS evidence score of classify_document. -/
def tps_score_of (blocks : List Block) (tables : Tables)
    (midx : Option (List Marker)) (filename : Option Str) : ℚ :=
  let textSamples := (blocks.take 80).filterMap
    (fun b => if b.text = [] then none else some b.text)
  let joinedUpper := upperStr (List.intercalate "\n".toList textSamples)
  let tpsHits := (TPS_KEYWORDS.filter (fun kw => isSubstr kw joinedUpper)).length
  let base := ratAdd (ratOfNat tpsHits) (ratDiv (ratOfNat tables.length) (ratOfNat 50))
  let withIdx := match midx with
    | some idx => ratAdd base (ratDiv (ratOfNat (tps_count idx)) (ratOfNat 120))
    | none => base
  match filename with
  | some fn =>
    let fnUp := upperStr fn
    if "TPS".toList.isPrefixOf fnUp
        || isSubstr "TECHNICAL PURCHASE SPECIFICATION".toList fnUp then
      ratAdd withIdx (ratOfNat 2)
    else withIdx
  | none => withIdx

/-- extraction/classifier.classify_document. -/
def classify_document (blocks : List Block) (tables : Tables)
    (filename : Option Str) (midx : Option (List Marker)) : DocumentProfile :=
  let rsScore := rs_score_of blocks midx filename
  let tpsScore := tps_score_of blocks tables midx filename
  if rsScore = 0 && tpsScore = 0 then
    { docType := "UNKNOWN".toList, confidence := 0 }
  else if ratLeB tpsScore rsScore then
    { docType := "RS".toList,
      confidence := round3 (ratDiv rsScore (ratAdd (ratAdd rsScore tpsScore) classifierEps)) }
  else
    { docType := "TPS".toList,
      confidence := round3 (ratDiv tpsScore (ratAdd (ratAdd rsScore tpsScore) classifierEps)) }

/- ----------------------------------------------------------------------
   utils.py SectionTracker and extractors.py: extract_from_rs_text,
   extract_rs_markers_from_tables, and the fallback strategy.
   ---------------------------------------------------------------------- -/

/-- SectionTracker.update_and_get_path folded over one block: the new
heading stack. -/
def sectionUpdate (stack : List (Nat × Str)) (b : Block) : List (Nat × Str) :=
  if b.btype = "heading".toList then
    let text := pyStrip b.text
    if text ≠ [] then
      List.rdropWhile (fun p => decide (b.level ≤ p.1)) stack ++ [(b.level, text)]
    else stack
  else stack

/-- Group 1 of the spaced RS marker pattern of extractors.py: the matched
text after the hash and the following whitespace. -/
def rsSpacedGroup1 (whole : Str) : Str := (whole.drop 1).dropWhile pyIsSpace

/-- The marker id of extractors.py: group 1 with plain spaces removed. -/
def rsSpacedMarkerId (whole : Str) : Str :=
  (rsSpacedGroup1 whole).filter (fun c => c ≠ ' ')

/-- The verification-method search of extract_from_rs_text: leftmost
case-insensitive prefix, greedy whitespace, then a lazy dot-free segment
ending at a period.  Returns (match start, content). -/
def vmSearch : Nat → Nat → Str → Option (Nat × Str)
  | 0, _, _ => none
  | _, _, [] => none
  | fuel + 1, pos, c :: rest =>
    let s := c :: rest
    if "verification method:".toList.isPrefixOf (lowerStr (s.take 20)) then
      let q := s.drop 20
      let ws := q.takeWhile pyIsSpace
      let seg := q.drop ws.length
      let content := seg.takeWhile (fun d => d ≠ '.' && d ≠ '\n')
      match seg.drop content.length with
      | '.' :: _ => some (pos, content)
      | _ => vmSearch fuel (pos + 1) rest
    else vmSearch fuel (pos + 1) rest

/-- extractors.extract_from_rs_text. -/
def extract_from_rs_text (blocks : List Block) : List Requirement :=
  (blocks.foldl (fun (st : List (Nat × Str) × List Requirement) block =>
    let (stack, acc) := st
    let stack2 := sectionUpdate stack block
    if block.btype ≠ "paragraph".toList then (stack2, acc)
    else
      let sectionPath := stack2.map Prod.snd
      let text := block.text
      let ms := rsScan (text.length + 1) 0 text
      let reqs := ms.enum.map (fun (i, m) =>
        let (_, stop, whole, _, _) := m
        let markerId := rsSpacedMarkerId whole
        let endPos := match ms.get? (i + 1) with
          | some nxt => nxt.1
          | none => text.length
        let reqTextRaw0 := pyStrip (pySlice text stop endPos)
        let (verificationMethod, reqTextRaw) :=
          match vmSearch (reqTextRaw0.length + 1) 0 reqTextRaw0 with
          | some (vs, content) => (some (pyStrip content), pyStrip (reqTextRaw0.take vs))
          | none => (none, reqTextRaw0)
        let normative := find_normative_strength reqTextRaw
        let acList := extract_numbers_with_units reqTextRaw
        let refs := collect_references reqTextRaw
        let subject := infer_subject sectionPath reqTextRaw "generator".toList
        let category := guess_category sectionPath reqTextRaw
        let canonical := canonicalize subject reqTextRaw
        let evQuery := make_evidence_query subject canonical refs
        { requirementUid := "RS:#".toList ++ markerId,
          sectionPath := sectionPath,
          normativeStrength := normative,
          canonicalStatement := canonical,
          requirementRaw := reqTextRaw,
          acceptanceCriteria := acList,
          verificationMethod := verificationMethod,
          references := refs,
          subject := subject,
          category := category,
          tags := [],
          evidenceQuery := evQuery : Requirement })
      (stack2, acc ++ reqs)) ([], [])).2

/-- extractors.extract_rs_markers_from_tables: scan the raw csv text of
each table for spaced RS markers, de-duplicated across tables. -/
def extract_rs_markers_from_tables (tables : Tables) : List Requirement :=
  (tables.foldl (fun (st : List Str × List Requirement) tp =>
    let (seen, acc) := st
    let csvText := tp.2.csvData
    if csvText = [] then (seen, acc)
    else if !isSubstr "#".toList csvText then (seen, acc)
    else
      (rsScan (csvText.length + 1) 0 csvText).foldl (fun (st2 : List Str × List Requirement) m =>
        let (seen2, acc2) := st2
        let (_, _, whole, _, _) := m
        let markerId := rsSpacedMarkerId whole
        let uid := "RS:#".toList ++ markerId
        if seen2.contains uid then (seen2, acc2)
        else
          (seen2 ++ [uid], acc2 ++
            [{ requirementUid := uid,
               sectionPath := [],
               normativeStrength := none,
               canonicalStatement := "Requirement #".toList ++ markerId,
               requirementRaw := '#' :: markerId,
               acceptanceCriteria := [],
               verificationMethod := none,
               references := [],
               subject := "generator".toList,
               category := none,
               tags := [],
               evidenceQuery := "requirement ".toList ++ markerId : Requirement }])) (seen, acc))
    ([], [])).2

/-- The unspaced marker pattern of the fallback strategy. -/
def tryFallbackMarkerAt (s : Str) : Option (Nat × Str × Str) :=
  match s with
  | '#' :: r0 =>
    let a := r0.takeWhile Char.isDigit
    if a = [] then none else
    match r0.drop a.length with
    | '.' :: r1 =>
      let b := r1.takeWhile Char.isDigit
      if b = [] then none else some (1 + a.length + 1 + b.length, a, b)
    | _ => none
  | _ => none

def fallbackScan : Nat → Nat → Str → List (Nat × Nat × Str × Str)
  | 0, _, _ => []
  | _, _, [] => []
  | fuel + 1, pos, c :: rest =>
    match tryFallbackMarkerAt (c :: rest) with
    | some (len, a, b) =>
      (pos, pos + len, a, b) :: fallbackScan fuel (pos + len) ((c :: rest).drop len)
    | none => fallbackScan fuel (pos + 1) rest

/-- extraction/fallback_strategy.FallbackStrategy.extract_requirements
(evidence_query None is modelled as the empty string). -/
def fallbackExtract (blocks : List Block) : List Requirement :=
  blocks.foldl (fun acc b =>
    let txt := pyStrip b.text
    if txt = [] then acc
    else
      acc ++ ((fallbackScan (txt.length + 1) 0 txt).filterMap (fun m =>
        let (_, stop, a, b2) := m
        let num := natRepr (natOfDigits a) ++ '.' :: b2
        let raw := pyStrip (txt.drop stop)
        if raw = [] then none
        else some
          { requirementUid := "GEN:#".toList ++ num,
            sectionPath := [],
            normativeStrength := none,
            canonicalStatement := raw,
            requirementRaw := raw,
            acceptanceCriteria := [],
            verificationMethod := none,
            references := [],
            subject := "generic".toList,
            category := none,
            tags := [],
            evidenceQuery := [] }))) []

/- ----------------------------------------------------------------------
   extractors.py: extract_from_tps_tables, with its pandas access model:
   empty cells read as missing values, columns whose nonmissing cells all
   parse as plain decimals become numeric (integer columns only when no
   cell is missing and none has a decimal point), and cell rendering
   follows the dtype.  Tables whose data rows are wider than the header
   raise inside read_csv and are skipped.
   ---------------------------------------------------------------------- -/

def intRepr (q : ℚ) : Str := (toString q.num).toList

/-- A cell looks numeric to the pandas reader (no surrounding space). -/
def pdNumericCell (s : Str) : Bool :=
  decide (pyStrip s = s) && (pyParseFloat s).isSome

structure PdTable where
  header : List Str
  grid : List (List (Option Str))
  numericCols : List Bool
  intCols : List Bool
deriving Repr

/-- Build the pandas frame model from parsed csv rows. -/
def pdOfRows (header : List Str) (dataRows : List (List Str)) : PdTable :=
  let ncols := header.length
  let grid := dataRows.map (fun r =>
    (List.range ncols).map (fun j =>
      if j < r.length then
        let c := r.getD j []
        if c = [] then none else some c
      else none))
  let colCells : Nat → List (Option Str) := fun j => grid.map (fun r => r.getD j none)
  let numericCols := (List.range ncols).map (fun j =>
    ((colCells j).filterMap id).all pdNumericCell)
  let intCols := (List.range ncols).map (fun j =>
    (colCells j).all (fun c =>
      match c with
      | none => false
      | some v => pdNumericCell v && !v.contains '.'))
  { header := header, grid := grid, numericCols := numericCols, intCols := intCols }

/-- str(row[col]) under the dtype model. -/
def pdCellStr (t : PdTable) (row : List (Option Str)) (j : Nat) : Str :=
  match row.getD j none with
  | none => "nan".toList
  | some v =>
    if t.numericCols.getD j false then
      match pyParseFloat v with
      | some q => if t.intCols.getD j false then intRepr q else ratRepr q
      | none => v
    else v

def pdIsNa (row : List (Option Str)) (j : Nat) : Bool := (row.getD j none).isNone

/-- The column lookup of extract_from_tps_tables: the dict comprehension
maps each stripped header name to the column, so duplicates resolve to the
last occurrence. -/
def pdGetCol (header : List Str) (name : Str) : Option Nat :=
  ((header.enum.filter (fun p => pyStrip p.2 = name)).getLast?).map Prod.fst

/-- Full-string match of the two-column id pattern (hash, spaces, digits,
one optional dot- or dash-suffixed digit group, spaces). -/
def twoColIdPat (s : Str) : Bool :=
  match s with
  | '#' :: r0 =>
    let ws := r0.takeWhile pyIsSpace
    let r1 := r0.drop ws.length
    let a := r1.takeWhile Char.isDigit
    if a = [] then false else
    let r2 := r1.drop a.length
    let r3 := match r2 with
      | '.' :: r2b =>
        let b := r2b.takeWhile Char.isDigit
        if b = [] then r2 else r2b.drop b.length
      | '-' :: r2b =>
        let b := r2b.takeWhile Char.isDigit
        if b = [] then r2 else r2b.drop b.length
      | _ => r2
    r3.all pyIsSpace
  | _ => false

/-- Leftmost match of the two-column id-cell pattern; returns group 1. -/
def twoColIdSearch : Nat → Str → Option Str
  | 0, _ => none
  | _, [] => none
  | fuel + 1, c :: rest =>
    match (c :: rest) with
    | '#' :: r0 =>
      let ws := r0.takeWhile pyIsSpace
      let r1 := r0.drop ws.length
      let a := r1.takeWhile Char.isDigit
      if a = [] then twoColIdSearch fuel rest
      else
        let r2 := r1.drop a.length
        let suffix : Str := match r2 with
          | '.' :: r2b =>
            let b := r2b.takeWhile Char.isDigit
            if b = [] then [] else '.' :: b
          | '-' :: r2b =>
            let b := r2b.takeWhile Char.isDigit
            if b = [] then [] else '-' :: b
          | _ => []
        some (a ++ suffix)
    | _ => twoColIdSearch fuel rest

/-- The end-anchored verification-method search of the two-column branch:
leftmost case-insensitive prefix whose tail decomposes into greedy
whitespace, a newline-free lazy content segment, an optional period and
trailing whitespace.  Returns (match start, content). -/
def vmEndDecompose (tail : Str) : Option Str :=
  ((List.range (tail.length + 1)).find? (fun m =>
    (tail.take m).all (fun d => d ≠ '\n') &&
    (let r := tail.drop m
     let r2 := match r with
       | '.' :: r1 => r1
       | _ => r
     r2.all pyIsSpace))).map (fun m => tail.take m)

def vmEndSearch : Nat → Nat → Str → Option (Nat × Str)
  | 0, _, _ => none
  | _, _, [] => none
  | fuel + 1, pos, c :: rest =>
    let s := c :: rest
    if "verification method:".toList.isPrefixOf (lowerStr (s.take 20)) then
      let q := s.drop 20
      let tail := q.drop (q.takeWhile pyIsSpace).length
      match vmEndDecompose tail with
      | some content => some (pos, content)
      | none => vmEndSearch fuel (pos + 1) rest
    else vmEndSearch fuel (pos + 1) rest

/-- Leftmost match of the parameter-value unit pattern; returns the unit
group. -/
def unitClassChar (c : Char) : Bool := c.isAlpha || c = 'Â' || c = '°' || c = '%'

def unitSearch : Nat → Str → Option Str
  | 0, _ => none
  | _, [] => none
  | fuel + 1, c :: rest =>
    let s := c :: rest
    let ds := s.takeWhile Char.isDigit
    if ds ≠ [] then
      let r1 := s.drop ds.length
      let r2 := match r1 with
        | '.' :: r1b =>
          let fs := r1b.takeWhile Char.isDigit
          if fs = [] then r1 else r1b.drop fs.length
        | _ => r1
      let r3 := r2.drop (r2.takeWhile pyIsSpace).length
      let u := r3.takeWhile unitClassChar
      if u = [] then unitSearch fuel rest
      else
        let r4 := r3.drop u.length
        match r4 with
        | '/' :: r5 =>
          let ls := r5.takeWhile Char.isAlpha
          if ls = [] then some u else some (u ++ '/' :: ls)
        | _ => some u
    else unitSearch fuel rest

/-- Leftmost plain number match (digits with an optional fraction). -/
def numSearch : Nat → Str → Option ℚ
  | 0, _ => none
  | _, [] => none
  | fuel + 1, c :: rest =>
    let s := c :: rest
    let ds := s.takeWhile Char.isDigit
    if ds = [] then numSearch fuel rest
    else
      let r1 := s.drop ds.length
      match r1 with
      | '.' :: r1b =>
        let fs := r1b.takeWhile Char.isDigit
        if fs = [] then some (ratOfParts ds []) else some (ratOfParts ds fs)
      | _ => some (ratOfParts ds [])

/-- One data row of extract_from_tps_tables. -/
def tpsTableRowRequirement (tableId : Str) (t : PdTable)
    (idCol subjCol reqCol unitCol lslCol targetCol uslCol : Option Nat)
    (isTwoColIds isParamValue : Bool) (ri : Nat) (row : List (Option Str)) :
    Option Requirement :=
  let cellS : Nat → Str := pdCellStr t row
  let defaultRowId := tableId ++ ':' :: natRepr (ri + 1)
  let core : Option (Str × Str × List AcceptanceCriterion × Str × Option Str × Str) :=
    -- (row_id, raw_text, ac_list, subject, verification_method, canonical)
    if isTwoColIds then
      let rawText0 := if pdIsNa row 0 then [] else pyStrip (cellS 0)
      let idCell := if pdIsNa row 1 then [] else pyStrip (cellS 1)
      let m := twoColIdSearch (idCell.length + 1) idCell
      if rawText0 = [] && m.isNone then none
      else
        let rowId := (m.map (fun g => g.filter (fun c => c ≠ ' '))).getD defaultRowId
        let (vm, rawText) :=
          match vmEndSearch (rawText0.length + 1) 0 rawText0 with
          | some (vs, content) => (some (pyStrip content), pyStrip (rawText0.take vs))
          | none => (none, rawText0)
        let acList := extract_numbers_with_units rawText
        let subject := infer_subject [] rawText "generator".toList
        some (rowId, rawText, acList, subject, vm, canonicalize subject rawText)
    else if isParamValue then
      let paramName := if pdIsNa row 0 then [] else pyStrip (cellS 0)
      let paramValue := if pdIsNa row 1 then [] else pyStrip (cellS 1)
      if paramName = [] || paramValue = [] then none
      else
        let subject0 := lowerStr paramName
        let subject := match subject0.getLast? with
          | some ':' => pyStrip subject0.dropLast
          | _ => subject0
        let rawText := paramName ++ ':' :: ' ' :: paramValue
        let acList0 := extract_numbers_with_units paramValue
        let acList :=
          if acList0 = [] && paramValue.any Char.isDigit then
            let unit := (unitSearch (paramValue.length + 1) paramValue).map normalize_unit
            match numSearch (paramValue.length + 1) paramValue with
            | some v =>
              [{ id := defaultRowId ++ "-eq".toList,
                 text := pyStrip ("= ".toList ++ ratRepr v ++ ' ' :: (unit.getD [])),
                 comparator := some "=".toList, value := some v, unit := unit }]
            | none => []
          else acList0
        some (defaultRowId, rawText, acList, subject, none,
          "The ".toList ++ subject ++ " shall be ".toList ++ paramValue)
    else
      let rowId := match idCol with
        | some j => if !pdIsNa row j then pyStrip (cellS j) else defaultRowId
        | none => defaultRowId
      let subject := match subjCol with
        | some j => if !pdIsNa row j then pyStrip (cellS j) else "generator".toList
        | none => "generator".toList
      let rawText := match reqCol with
        | some j => if !pdIsNa row j then pyStrip (cellS j) else []
        | none => []
      let unit0 : Option Str := match unitCol with
        | some j => if !pdIsNa row j then some (pyStrip (cellS j)) else none
        | none => none
      let unit : Option Str := match unit0 with
        | some u => if u = [] then none else some (normalize_unit u)
        | none => none
      let addNumeric : Str → Option Nat → List AcceptanceCriterion := fun cmpSymbol c =>
        match c with
        | some j =>
          if pdIsNa row j then []
          else
            match pyParseFloat ((row.getD j none).getD []) with
            | some v =>
              [{ id := rowId ++ '-' :: cmpSymbol,
                 text := pyStrip (cmpSymbol ++ ' ' :: ratRepr v ++ ' ' :: (unit.getD [])),
                 comparator := some cmpSymbol, value := some v, unit := unit }]
            | none => []
        | none => []
      let acList := addNumeric ">=".toList lslCol ++ addNumeric "=".toList targetCol
        ++ addNumeric "<=".toList uslCol
      let canonical := canonicalize subject
        (if rawText = [] then unit.getD "specification".toList else rawText)
      some (rowId, rawText, acList, subject, none, canonical)
  match core with
  | none => none
  | some (rowId, rawText, acList, subject, vm, canonical) =>
    if rawText = [] && acList = [] then none
    else
      some
        { requirementUid := "TPS:".toList ++ rowId,
          sectionPath := [],
          normativeStrength :=
            if isTwoColIds then find_normative_strength rawText else none,
          canonicalStatement := canonical,
          requirementRaw := rawText,
          acceptanceCriteria := acList,
          verificationMethod := vm,
          references := collect_references rawText,
          subject := subject,
          category := guess_category [] rawText,
          tags := [],
          evidenceQuery := make_evidence_query subject canonical
            (collect_references rawText) }

/-- extractors.extract_from_tps_tables. -/
def extract_from_tps_tables (tables : Tables) : List Requirement :=
  tables.foldl (fun acc (tableId, tinfo) =>
    if tinfo.csvData = [] then acc
    else
      match parseCsv tinfo.csvData with
      | [] => acc
      | header :: dataRows =>
        if dataRows.any (fun r => header.length < r.length) then acc
        else
          let t := pdOfRows header dataRows
          let idCol := pdGetCol header "ID".toList
          let subjCol := pdGetCol header "Subject".toList
          let reqCol := pdGetCol header "Requirement".toList
          let unitCol := pdGetCol header "Unit".toList
          let lslCol := pdGetCol header "LSL".toList
          let targetCol := pdGetCol header "Target".toList
          let uslCol := pdGetCol header "USL".toList
          let isTwoColIds := header.length = 2 && reqCol.isNone && lslCol.isNone &&
            targetCol.isNone && uslCol.isNone &&
            t.grid.any (fun row => twoColIdPat (pyStrip (pdCellStr t row 1)))
          let paramHeaders := strList
            ["parameter", "description", "test method", "direction", "temperature", "pressure"]
          let valueHeaders := strList
            ["value", "setting", "specification", "requirement", "result"]
          let isParamValue := header.length = 2 && !isTwoColIds &&
            (paramHeaders.any (fun ph => isSubstr ph (lowerStr (header.getD 0 [])))
              || valueHeaders.any (fun vh => isSubstr vh (lowerStr (header.getD 1 [])))
              || (1 < t.grid.length &&
                t.grid.all (fun row => pyStrip (pdCellStr t row 0) ≠ []) &&
                t.grid.any (fun row => (pdCellStr t row 1).any Char.isDigit)))
          acc ++ (t.grid.enum.filterMap (fun (ri, row) =>
            tpsTableRowRequirement tableId t idCol subjCol reqCol unitCol lslCol
              targetCol uslCol isTwoColIds isParamValue ri row))) []

/- ----------------------------------------------------------------------
   simple.py: the extract_requirements pipeline (lines 754-1002), for a
   document given as blocks plus tables.  The file-system fallbacks of the
   TPS branch (pre-normalization table snapshot, sibling plaintext and
   markdown artifacts) are modelled as absent, which is their state for a
   document presented through the two in-scope interfaces; force_type is
   None and marker_first is a parameter as in the source.
   ---------------------------------------------------------------------- -/

/-- re.fullmatch of the numeric TPS uid pattern (two to four digits with an
optional single fractional component). -/
def numericTpsUidMatch (uid : Str) : Bool :=
  if "TPS:".toList.isPrefixOf uid then
    let t := uid.drop 4
    let ds := t.takeWhile Char.isDigit
    decide (2 ≤ ds.length) && decide (ds.length ≤ 4) &&
      (match t.drop ds.length with
       | [] => true
       | '.' :: r => r ≠ [] && r.all Char.isDigit
       | _ => false)
  else false

/-- The RS-form uid a numeric TPS uid is remapped to. -/
def rsRemapUid (uid : Str) : Str :=
  let numPart := uid.drop 4
  let numPart2 := if numPart.contains '.' then numPart else numPart ++ ".0".toList
  "RS:#".toList ++ numPart2

/-- The hybrid RS merge of the TPS branch: when the paragraph text carries
at least fifteen RS-style markers, run the RS text extractor and the RS
table-marker scan and merge the uids not already present. -/
def tpsHybridRsMerge (blocks : List Block) (tables : Tables)
    (reqs : List Requirement) : List Requirement :=
  let text := ((List.intercalate "\n".toList
    ((blocks.filter (fun b => b.btype = "paragraph".toList)).map (fun b => b.text)))).take 200000
  let rsMarkerMatches := rsStyleCount (text.length + 1) text
  if 15 ≤ rsMarkerMatches then
    let rsReqs := extract_from_rs_text blocks ++ extract_rs_markers_from_tables tables
    let existing := reqs.map (fun r => r.requirementUid)
    reqs ++ rsReqs.filter (fun r => !existing.contains r.requirementUid)
  else reqs

/-- The remap heuristic of the TPS branch (simple.py lines 967-997): with
at least forty RS markers in the concatenated table csv text and at least
forty percent numeric TPS uids, re-namespace those uids into RS form
unless the target uid already exists, and correct the document type.
Returns the updated requirements and whether the correction fired. -/
def tableRsMarkerCount (tables : Tables) : Nat :=
  let tableCsvConcat := List.intercalate "\n".toList (tables.map (fun p => p.2.csvData))
  rsStyleCount (tableCsvConcat.length + 1) tableCsvConcat

def tpsRsRemap (tables : Tables) (reqs : List Requirement) :
    List Requirement × Bool :=
  if 40 ≤ tableRsMarkerCount tables then
    if reqs.filter (fun r => numericTpsUidMatch r.requirementUid) ≠ [] &&
        2 * (max 1 reqs.length) ≤
          5 * (reqs.filter (fun r => numericTpsUidMatch r.requirementUid)).length then
      (reqs.map (fun r =>
        if numericTpsUidMatch r.requirementUid then
          if (reqs.map (fun x => x.requirementUid)).contains
              (rsRemapUid r.requirementUid) then r
          else { r with requirementUid := rsRemapUid r.requirementUid }
        else r), true)
    else (reqs, false)
  else (reqs, false)

structure ExtractResult where
  requirements : List Requirement
  documentType : Str
  classificationConfidence : ℚ
deriving Repr

/-- simple.extract_requirements (the in-memory core). -/
def extract_requirements (blocks : List Block) (tables : Tables) (filename : Str)
    (markerFirst : Bool) : ExtractResult :=
  let idx := build_marker_index blocks tables
  let profile := classify_document blocks tables (some filename) (some idx)
  let docType0 := profile.docType
  let resPair : List Requirement × Bool :=
    if markerFirst && docType0 = "RS".toList then
      (build_requirements_from_markers idx blocks (some tables), false)
    else if markerFirst && docType0 = "TPS".toList then
      let postId := build_tps_requirements_from_id_tables (some tables)
      let merged := alValues (postId.foldl (fun d r => alUpsert r.requirementUid r d) [])
      let tpsReqs := build_tps_requirements_from_markers idx blocks (some tables)
      let existing := merged.map (fun r => r.requirementUid)
      let combined := merged ++ tpsReqs.filter (fun r => !existing.contains r.requirementUid)
      let consolidated := consolidate_and_filter_tps combined (some tables)
      (consolidated, decide (consolidated.length < 10) && decide (50 < tps_count idx))
    else ([], false)
  let reqs1 := resPair.1
  let extraStrategy := resPair.2
  let reqs2 :=
    if !markerFirst then
      if docType0 = "RS".toList then extract_from_rs_text blocks
      else if docType0 = "TPS".toList then extract_from_tps_tables tables
      else fallbackExtract blocks
    else if docType0 = "TPS".toList && extraStrategy then
      let strat := extract_from_tps_tables tables
      let existing := reqs1.map (fun r => r.requirementUid)
      reqs1 ++ strat.filter (fun r => !existing.contains r.requirementUid)
    else reqs1
  if docType0 = "TPS".toList then
    let reqs3 := tpsHybridRsMerge blocks tables reqs2
    let remapped := tpsRsRemap tables reqs3
    let docType1 := if remapped.2 then "RS".toList else docType0
    let rsCnt := (remapped.1.filter (fun r => "RS:".toList.isPrefixOf r.requirementUid)).length
    let tpsCnt := (remapped.1.filter (fun r => "TPS:".toList.isPrefixOf r.requirementUid)).length
    let docType2 := if tpsCnt < rsCnt then "RS".toList else docType1
    { requirements := remapped.1, documentType := docType2,
      classificationConfidence := profile.confidence }
  else
    { requirements := reqs2, documentType := docType0,
      classificationConfidence := profile.confidence }

/- ----------------------------------------------------------------------
   Concrete inputs used by the claim theorems, their counterexamples and
   witnesses.
   ---------------------------------------------------------------------- -/

/-- A document whose single paragraph carries the same RS marker twice. -/
def c1Doc : List Block :=
  [{ btype := "paragraph".toList,
     text := "#001.0 Alpha beta gamma words #001.0 Delta epsilon zeta words".toList }]

/-- The end-to-end scenario table of the spec. -/
def c2Tables : Tables :=
  [("table_1".toList,
    { csvData := ("ID,Subject,Requirement,Unit,LSL,Target,USL\n" ++
        "4.1.2.7,generator,Maximum allowed RMS vibration level,mm/s,,,1.8\n").toList,
      columnNames := strList ["ID", "Subject", "Requirement", "Unit", "LSL", "Target", "USL"] })]

/-- A table whose data row has an empty requirement cell but a USL bound. -/
def c3Tables : Tables :=
  [("t1".toList,
    { csvData := "ID,Requirement,USL\n4.1,,2.5\n".toList,
      columnNames := strList ["ID", "Requirement", "USL"] })]

/-- A document with a lone RS marker and no body, producing a stub. -/
def c3wDoc : List Block :=
  [{ btype := "paragraph".toList, text := "#001.0".toList }]

/-- A document containing a five-component hierarchical identifier. -/
def c4Doc : List Block :=
  [{ btype := "paragraph".toList, text := "1.2.3.4.5 The system shall operate".toList }]

/-- The segmentation-slicing paragraph of the spec. -/
def c5Doc : List Block :=
  [{ btype := "paragraph".toList,
     text := "#001.0 First req. #002.0 Second req, must be good.".toList }]

/-- A long keyword-free consolidation candidate. -/
def c6A : Requirement :=
  { requirementUid := "TPS:#001.0".toList,
    sectionPath := [],
    normativeStrength := none,
    canonicalStatement := [],
    requirementRaw :=
      "The generator housing provides ample protection for electronic components in the assembly area".toList,
    acceptanceCriteria := [],
    verificationMethod := none,
    references := [],
    subject := "generator".toList,
    category := none,
    tags := [],
    evidenceQuery := [],
    sourceType := some "paragraph".toList }

/-- A short obligation-keyword consolidation candidate with the same uid. -/
def c6B : Requirement :=
  { requirementUid := "TPS:#001.0".toList,
    sectionPath := [],
    normativeStrength := some "MUST".toList,
    canonicalStatement := [],
    requirementRaw := "It shall work".toList,
    acceptanceCriteria := [],
    verificationMethod := none,
    references := [],
    subject := "generator".toList,
    category := none,
    tags := [],
    evidenceQuery := [],
    sourceType := some "paragraph".toList }

/-- Forty RS-style markers of table text. -/
def c7Tables : Tables :=
  [("t1".toList,
    { csvData := (List.replicate 40 ("#1.0 ".toList)).flatten, columnNames := [] })]

/-- A numeric TPS requirement whose RS-form uid is already taken. -/
def c7Numeric : Requirement :=
  { requirementUid := "TPS:57.0".toList,
    sectionPath := [], normativeStrength := none, canonicalStatement := [],
    requirementRaw := "The pump shall run quietly".toList,
    acceptanceCriteria := [], verificationMethod := none, references := [],
    subject := "generator".toList, category := none, tags := [], evidenceQuery := [] }

def c7Existing : Requirement :=
  { requirementUid := "RS:#57.0".toList,
    sectionPath := [], normativeStrength := none, canonicalStatement := [],
    requirementRaw := "The pump shall stay sealed".toList,
    acceptanceCriteria := [], verificationMethod := none, references := [],
    subject := "generator".toList, category := none, tags := [], evidenceQuery := [] }

/-- The invariant of the best-per-uid dictionary: pairwise distinct keys,
and each value carries its key as uid. -/
def bestInv (l : List (Str × Requirement)) : Prop :=
  l.Pairwise (fun p q => p.1 ≠ q.1) ∧ ∀ p ∈ l, p.2.requirementUid = p.1

/-- The scanner depth invariant: every TPS marker in the state has a uid
with at most five dots (six components). -/
def scanDepthInv (st : MarkerState) : Prop :=
  ∀ x ∈ st.markers, x.kind = "TPS".toList → countDots x.uid ≤ 5

/-- A document with a leading-zero second component in its identifier. -/
def c10Doc : List Block :=
  [{ btype := "paragraph".toList, text := "4.01 The pump shall run properly".toList }]

end Docling

/- ========================================================================
   THEOREMS.  One theorem per claim of the specification, with the
   counterexamples and witnesses the statuses require, preceded by the
   supporting lemmas.
   ======================================================================== -/

namespace Docling

/- ----------------------------------------------------------------------
   Generic helper lemmas about the string primitives.
   ---------------------------------------------------------------------- -/

theorem dropWhile_head_not {p : Char → Bool} (s : Str) :
    ∀ c ∈ (s.dropWhile p).head?, p c = false := by
  induction s with
  | nil => intro c hc; simp [List.dropWhile] at hc
  | cons a t ih =>
    intro c hc
    by_cases h : p a
    · rw [List.dropWhile_cons_of_pos h] at hc
      exact ih c hc
    · rw [List.dropWhile_cons_of_neg h] at hc
      simp at hc
      subst hc
      simpa using h

theorem dropWhile_eq_self_of_head {p : Char → Bool} (s : Str)
    (h : ∀ c ∈ s.head?, p c = false) : s.dropWhile p = s := by
  cases s with
  | nil => rfl
  | cons a t =>
    have ha : p a = false := h a (by simp)
    exact List.dropWhile_cons_of_neg (by simp [ha])

theorem head?_of_prefix {u t : Str} (h : u <+: t) (hne : u ≠ []) :
    t.head? = u.head? := by
  obtain ⟨r, rfl⟩ := h
  cases u with
  | nil => exact absurd rfl hne
  | cons a l => rfl

theorem pyStrip_head_not (s : Str) :
    ∀ c ∈ (pyStrip s).head?, pyIsSpace c = false := by
  intro c hc
  have hne : pyStrip s ≠ [] := by intro h; rw [h] at hc; simp at hc
  unfold pyStrip at hc hne
  rw [← head?_of_prefix (List.rdropWhile_prefix pyIsSpace _) hne] at hc
  exact dropWhile_head_not s c hc

theorem pyStrip_getLast_not (s : Str) :
    ∀ c ∈ (pyStrip s).getLast?, pyIsSpace c = false := by
  intro c hc
  rw [← List.head?_reverse] at hc
  unfold pyStrip List.rdropWhile at hc
  rw [List.reverse_reverse] at hc
  exact dropWhile_head_not _ c hc

theorem pyStrip_eq_self_of (s : Str)
    (h1 : ∀ c ∈ s.head?, pyIsSpace c = false)
    (h2 : ∀ c ∈ s.getLast?, pyIsSpace c = false) : pyStrip s = s := by
  unfold pyStrip
  rw [dropWhile_eq_self_of_head s h1]
  rw [List.rdropWhile_eq_self_iff]
  intro hl
  have := h2 (s.getLast hl) (Option.mem_def.mpr (List.getLast?_eq_getLast s hl))
  simpa using this

theorem pyStrip_idem (s : Str) : pyStrip (pyStrip s) = pyStrip s :=
  pyStrip_eq_self_of _ (pyStrip_head_not s) (pyStrip_getLast_not s)

theorem char_toNat_ofNat {n : Nat} (h : Nat.isValidChar n) :
    (Char.ofNat n).toNat = n := by
  unfold Char.ofNat
  split
  · rfl
  · simp_all [Char.ofNatAux]

theorem pyIsSpace_eq_false_of_ge (c : Char) (h1 : 65 ≤ c.toNat) :
    pyIsSpace c = false := by
  show (decide (c.toNat = 32) || decide (c.toNat = 9) || decide (c.toNat = 10)
      || decide (c.toNat = 13) || decide (c.toNat = 11) || decide (c.toNat = 12)) = false
  simp only [Bool.or_eq_false_iff, decide_eq_false_iff_not]
  omega

theorem pyIsSpace_asciiLower (c : Char) :
    pyIsSpace (asciiLower c) = pyIsSpace c := by
  unfold asciiLower
  by_cases h : (65 ≤ c.toNat && c.toNat ≤ 90) = true
  · have hb : 65 ≤ c.toNat ∧ c.toNat ≤ 90 := by simpa using h
    have hv : Nat.isValidChar (c.toNat + 32) := Or.inl (by omega)
    have ht : (Char.ofNat (c.toNat + 32)).toNat = c.toNat + 32 := char_toNat_ofNat hv
    rw [if_pos h, pyIsSpace_eq_false_of_ge _ (by rw [ht]; omega),
      pyIsSpace_eq_false_of_ge _ hb.1]
  · rw [if_neg h]

/- ----------------------------------------------------------------------
   Spot checks of the embedded primitives on concrete inputs.
   ---------------------------------------------------------------------- -/

example : canonicalize "generator".toList "runs smoothly".toList
    = "The generator shall runs smoothly".toList := by decide

example : canonicalize "generator".toList "  The generator shall run  ".toList
    = "The generator shall run".toList := by decide

example : ratRepr (ratOfParts "1".toList "8".toList) = "1.8".toList := by decide

example : ratRepr (ratOfParts "780".toList []) = "780.0".toList := by decide

example : extract_numbers_with_units "1.8 mm/s".toList =
    [{ id := "numeric-1.8mm_per_s".toList, text := "1.8 mm/s".toList,
       comparator := some "=".toList, value := some (ratOfParts "1".toList "8".toList),
       unit := some "mm_per_s".toList }] := by decide

example : collect_references "per IEC 60034-5 and ISO 10816.".toList
    = [ "IEC 60034-5".toList, "ISO 10816".toList ] := by decide

example : parseCsv "ID,Req\n4.1,,x\n".toList
    = [["ID".toList, "Req".toList], ["4.1".toList, [], "x".toList]] := by decide

example : parseCsv "\"a,b\"\"c\",d\n".toList
    = [["a,b\"c".toList, "d".toList]] := by decide

example : (tpsScan 20 none 0 "1.2.3x 4.1.2.7".toList).map (fun m => m.2.2)
    = ["1.2".toList, "4.1.2.7".toList] := by decide

example : (tpsScan 30 none 0 "1.2.3.4.5.6.7".toList).map (fun m => m.2.2)
    = ["1.2.3.4.5.6".toList] := by decide

example : canonicalize_tps_uid "4.1.2.7".toList = "#004.1".toList := by decide

example : canonicalize_tps_uid "4.01".toList = "#004.1".toList := by decide

/-- C5 (confirmed): on the paragraph with two inline RS markers,
marker-first segmentation yields exactly two Requirements: uid ending in
hash-001.0 with body First req., and uid ending in hash-002.0 with body
Second req, must be good. and normative strength MUST. -/
theorem claim_C5_segmentation_slicing :
    ((build_requirements_from_markers (build_marker_index c5Doc []) c5Doc (some [])).map
        (fun r => (r.requirementUid, r.requirementRaw, r.normativeStrength))) =
      [("RS:#001.0".toList, "First req.".toList, none),
       ("RS:#002.0".toList, "Second req, must be good.".toList, some "MUST".toList)] ∧
    "#001.0".toList.isSuffixOf "RS:#001.0".toList = true ∧
    "#002.0".toList.isSuffixOf "RS:#002.0".toList = true := by decide

/-- C1 counterexample: a document whose single paragraph repeats the
marker hash-001.0 is classified RS and the end-to-end pipeline emits two
Requirements with the same requirement_uid, so the uniqueness claim fails
on the RS marker-first path. -/
theorem claim_C1_counterexample :
    ((extract_requirements c1Doc [] ("doc1".toList) true).requirements.map
      (fun r => r.requirementUid)) = ["RS:#001.0".toList, "RS:#001.0".toList] ∧
    ¬ List.Pairwise (fun a b => a.requirementUid ≠ b.requirementUid)
      (extract_requirements c1Doc [] ("doc1".toList) true).requirements ∧
    (extract_requirements c1Doc [] ("doc1".toList) true).documentType = "RS".toList := by
  decide

/-- C2 counterexample: on the end-to-end scenario input, the default
marker-first pipeline does yield exactly one Requirement whose uid
contains 4.1.2.7, but that Requirement carries no acceptance criteria at
all (the bound lands on marker-derived uids with a None unit instead). -/
theorem claim_C2_counterexample :
    ((extract_requirements [] c2Tables ("doc1".toList) true).requirements.filterMap
      (fun r => if isSubstr "4.1.2.7".toList r.requirementUid then
          some (r.requirementUid, r.acceptanceCriteria) else none)) =
      [("TPS:4.1.2.7".toList, [])] := by decide

/-- C2 amended: with marker-first segmentation disabled, the pipeline on
the same input yields exactly one Requirement, uid TPS:4.1.2.7, carrying
exactly one acceptance criterion with comparator at-most, value 1.8 and
normalized unit mm_per_s. -/
theorem claim_C2_amended :
    (extract_requirements [] c2Tables ("doc1".toList) false).documentType = "TPS".toList ∧
    ((extract_requirements [] c2Tables ("doc1".toList) false).requirements.map
      (fun r => (r.requirementUid, r.acceptanceCriteria))) =
      [("TPS:4.1.2.7".toList,
        [{ id := "4.1.2.7-<=".toList, text := "<= 1.8 mm_per_s".toList,
           comparator := some "<=".toList, value := some (mkRat 9 5),
           unit := some "mm_per_s".toList }])] ∧
    isSubstr "4.1.2.7".toList "TPS:4.1.2.7".toList = true := by decide

/-- C3 counterexample: a marker-first TPS table row with an empty
requirement cell and a USL bound produces Requirements flagged is_stub
that nevertheless carry one acceptance criterion each. -/
theorem claim_C3_counterexample :
    ((build_tps_requirements_from_markers (build_marker_index [] c3Tables) []
        (some c3Tables)).map
      (fun r => (r.requirementUid, r.isStub, r.acceptanceCriteria.length))) =
      [("TPS:#004.1".toList, true, 1), ("TPS:#002.5".toList, true, 1)] := by decide

/-- C4 counterexample: the identifier 1.2.3.4.5 has five dot-separated
components, more than four, yet the Marker Index emits it as a TPS marker
and marker-first segmentation even builds a Requirement from it. -/
theorem claim_C4_counterexample :
    (((build_marker_index c4Doc []).filter (fun m => m.kind = "TPS".toList)).map
      (fun m => m.uid)) = ["1.2.3.4.5".toList] ∧
    ("1.2.3.4.5".toList.splitOn '.').length = 5 ∧
    ((build_tps_requirements_from_markers (build_marker_index c4Doc []) c4Doc
        (some [])).map (fun r => r.requirementUid)) = ["TPS:#001.2".toList] := by decide

/-- C6 counterexample: two same-uid candidates, one with an obligation
keyword and one without; the keyword-free candidate has the longer body
(94 versus 13+50+20 score points) and is the one consolidation retains. -/
theorem claim_C6_counterexample :
    consolidate_and_filter_tps [c6A, c6B] (some []) = [c6A] ∧
    c6A.requirementUid = c6B.requirementUid ∧
    normKwSearch c6B.requirementRaw = true ∧
    normKwSearch c6A.requirementRaw = false := by decide

/-- C7 counterexample: with forty RS markers in table text and half the
requirements numeric-TPS-numbered, the remap heuristic fires and corrects
the document type, but the numeric requirement TPS:57.0 is left
un-renamespaced because its RS-form uid already exists. -/
theorem claim_C7_counterexample :
    40 ≤ tableRsMarkerCount c7Tables ∧
    numericTpsUidMatch c7Numeric.requirementUid = true ∧
    2 * max 1 ([c7Numeric, c7Existing].length) ≤
      5 * (([c7Numeric, c7Existing].filter
        (fun r => numericTpsUidMatch r.requirementUid)).length) ∧
    ((tpsRsRemap c7Tables [c7Numeric, c7Existing]).1.map
      (fun r => r.requirementUid)) = ["TPS:57.0".toList, "RS:#57.0".toList] ∧
    (tpsRsRemap c7Tables [c7Numeric, c7Existing]).2 = true := by decide

/-- C10 counterexample: the marker 4.01 is emitted with its leading-zero
second component, but the marker-first uid int-normalizes that component:
the emitted uid is TPS:#004.1, not the TPS:#004.01 the claim prescribes. -/
theorem claim_C10_counterexample :
    (((build_marker_index c10Doc []).filter (fun m => m.kind = "TPS".toList)).map
      (fun m => m.uid)) = ["4.01".toList] ∧
    ((build_tps_requirements_from_markers (build_marker_index c10Doc []) c10Doc
        (some [])).map (fun r => r.requirementUid)) = ["TPS:#004.1".toList] ∧
    "TPS:#004.1".toList ≠ "TPS:#004.01".toList := by decide

/- ----------------------------------------------------------------------
   Lemmas about canonicalize, towards the C9 idempotence claim.
   ---------------------------------------------------------------------- -/

theorem lowerStr_append (a b : Str) : lowerStr (a ++ b) = lowerStr a ++ lowerStr b :=
  List.map_append asciiLower a b

theorem isPrefixOf_append_self (a b : Str) : a.isPrefixOf (a ++ b) = true := by
  rw [List.isPrefixOf_iff_prefix]
  exact List.prefix_append a b

/-- If the already-stripped statement satisfies one of the pass-through
conditions of canonicalize, canonicalize returns it unchanged. -/
theorem canonicalize_fixes (s o : Str) (hne : o ≠ []) (ho : pyStrip o = o)
    (hcond : (("the ".toList ++ lowerStr s).isPrefixOf (lowerStr o)
        || (lowerStr s ++ " ".toList).isPrefixOf (lowerStr o)
        || ("the ".toList).isPrefixOf (lowerStr o)
        || isSubstr " shall ".toList (lowerStr o)
        || isSubstr " must ".toList (lowerStr o)) = true) :
    canonicalize s o = o := by
  unfold canonicalize
  simp only [ho, if_neg hne]
  by_cases h1 : (("the ".toList ++ lowerStr s).isPrefixOf (lowerStr o)
      || (lowerStr s ++ " ".toList).isPrefixOf (lowerStr o)) = true
  · rw [if_pos h1]
  · rw [if_neg h1]
    by_cases h2 : (("the ".toList).isPrefixOf (lowerStr o)) = true
    · rw [if_pos h2]
    · rw [if_neg h2]
      have h3 : (isSubstr " shall ".toList (lowerStr o)
          || isSubstr " must ".toList (lowerStr o)) = true := by
        simp only [Bool.or_eq_true] at hcond h1 ⊢
        rcases hcond with ((((hc | hc) | hc) | hc) | hc) <;> tauto
      rw [if_pos h3]

theorem canonicalize_idem (s r : Str) :
    canonicalize s (canonicalize s r) = canonicalize s r := by
  by_cases h0 : pyStrip r = []
  · have hval : canonicalize s r =
        "The ".toList ++ s ++ " shall comply with unspecified requirements.".toList := by
      unfold canonicalize
      simp [h0]
    rw [hval]
    apply canonicalize_fixes
    · simp
    · apply pyStrip_eq_self_of
      · intro c hc
        simp only [List.cons_append, List.head?_cons] at hc
        have : c = 'T' := by simpa using hc.symm
        subst this
        decide
      · intro c hc
        have hsplit : "The ".toList ++ s ++ " shall comply with unspecified requirements.".toList
            = ("The ".toList ++ s ++ " shall comply with unspecified requirements".toList)
              ++ ['.'] := by
          simp [List.append_assoc]
        rw [hsplit, List.getLast?_concat] at hc
        have : c = '.' := by simpa using hc.symm
        subst this
        decide
    · have hlow : lowerStr ("The ".toList ++ s
          ++ " shall comply with unspecified requirements.".toList)
        = ("the ".toList ++ lowerStr s)
          ++ lowerStr " shall comply with unspecified requirements.".toList := by
        simp only [lowerStr_append, List.append_assoc]
        rfl
      rw [hlow]
      simp [isPrefixOf_append_self]
  · by_cases h1 : (("the ".toList ++ lowerStr s).isPrefixOf (lowerStr (pyStrip r))
        || (lowerStr s ++ " ".toList).isPrefixOf (lowerStr (pyStrip r))) = true
    · have hval : canonicalize s r = pyStrip r := by
        unfold canonicalize
        simp only [if_neg h0, h1, if_pos]
      rw [hval]
      refine canonicalize_fixes s (pyStrip r) h0 (pyStrip_idem r) ?_
      simp only [Bool.or_eq_true] at h1 ⊢
      tauto
    · by_cases h2 : (("the ".toList).isPrefixOf (lowerStr (pyStrip r))) = true
      · have hval : canonicalize s r = pyStrip r := by
          unfold canonicalize
          simp only [if_neg h0, if_neg h1, h2, if_pos]
        rw [hval]
        refine canonicalize_fixes s (pyStrip r) h0 (pyStrip_idem r) ?_
        simp only [Bool.or_eq_true]
        tauto
      · by_cases h3 : (isSubstr " shall ".toList (lowerStr (pyStrip r))
            || isSubstr " must ".toList (lowerStr (pyStrip r))) = true
        · have hval : canonicalize s r = pyStrip r := by
            unfold canonicalize
            simp only [if_neg h0, if_neg h1, if_neg h2, h3, if_pos]
          rw [hval]
          refine canonicalize_fixes s (pyStrip r) h0 (pyStrip_idem r) ?_
          simp only [Bool.or_eq_true] at h3 ⊢
          tauto
        · cases hstrip : pyStrip r with
          | nil => exact absurd hstrip h0
          | cons c rest =>
            have hval : canonicalize s r =
                "The ".toList ++ s ++ " shall ".toList ++ (asciiLower c :: rest) := by
              unfold canonicalize
              rw [if_neg h0, if_neg h1, if_neg h2, if_neg h3, hstrip]
            have hheadc : pyIsSpace c = false := by
              have := pyStrip_head_not r
              rw [hstrip] at this
              exact this c rfl
            rw [hval]
            apply canonicalize_fixes
            · simp
            · apply pyStrip_eq_self_of
              · intro d hd
                simp only [List.cons_append, List.head?_cons] at hd
                have : d = 'T' := by simpa using hd.symm
                subst this
                decide
              · intro d hd
                have hassoc : "The ".toList ++ s ++ " shall ".toList ++ (asciiLower c :: rest)
                    = ("The ".toList ++ s ++ " shall ".toList) ++ (asciiLower c :: rest) := by
                  simp [List.append_assoc]
                rw [hassoc, List.getLast?_append_of_ne_nil _ (by simp)] at hd
                cases rest with
                | nil =>
                  have : d = asciiLower c := by simpa using hd.symm
                  subst this
                  rw [pyIsSpace_asciiLower]
                  exact hheadc
                | cons e t =>
                  rw [List.getLast?_cons_cons] at hd
                  have hlast := pyStrip_getLast_not r
                  rw [hstrip, List.getLast?_cons_cons] at hlast
                  exact hlast d hd
            · have hlow : lowerStr ("The ".toList ++ s ++ " shall ".toList
                  ++ (asciiLower c :: rest))
                = ("the ".toList ++ lowerStr s)
                  ++ lowerStr (" shall ".toList ++ (asciiLower c :: rest)) := by
                simp only [lowerStr_append, List.append_assoc]
                rfl
              rw [hlow]
              simp [isPrefixOf_append_self]

/-- C9 (confirmed): canonical-statement synthesis is idempotent on any
statement that is already canonical (one starting with the subject or
with The); in fact the proof shows canonicalize is idempotent on every
input. -/
theorem claim_C9_canonicalize_idem (subject raw : Str)
    (h : subject.isPrefixOf raw = true ∨ ("The".toList).isPrefixOf raw = true) :
    canonicalize subject (canonicalize subject raw) = canonicalize subject raw := by
  have _ := h
  exact canonicalize_idem subject raw

/-- C9 witness: the idempotence claim applied to a concrete already
canonical statement. -/
theorem claim_C9_witness :
    canonicalize "generator".toList
        (canonicalize "generator".toList "The generator shall run".toList)
      = canonicalize "generator".toList "The generator shall run".toList :=
  claim_C9_canonicalize_idem "generator".toList "The generator shall run".toList
    (Or.inr (by decide))

/- ----------------------------------------------------------------------
   Lemmas about the consolidation dictionary, towards C1 and C6.
   ---------------------------------------------------------------------- -/

theorem mem_ite_or {α : Type} {r : α} {c : Prop} [Decidable c] {a b : List α}
    (h : r ∈ if c then a else b) : r ∈ a ∨ r ∈ b := by
  split at h
  · exact Or.inl h
  · exact Or.inr h

theorem foldl_inv {α β : Type} (P : α → Prop) (step : α → β → α)
    (hstep : ∀ acc b, P acc → P (step acc b)) :
    ∀ (l : List β) (init : α), P init → P (l.foldl step init) := by
  intro l
  induction l with
  | nil => intro init h; exact h
  | cons x t ih => intro init h; exact ih _ (hstep init x h)

theorem alGet_eq_none_forall {K V : Type} [DecidableEq K] {k : K}
    {l : List (K × V)} (h : alGet k l = none) : ∀ p ∈ l, p.1 ≠ k := by
  induction l with
  | nil => simp
  | cons q t ih =>
    intro p hp
    unfold alGet at h
    by_cases hq : q.1 = k
    · simp [hq] at h
    · rw [if_neg hq] at h
      rcases List.mem_cons.mp hp with rfl | hp2
      · exact hq
      · exact ih h p hp2

theorem alGet_isSome_any {K V : Type} [DecidableEq K] {k : K}
    {l : List (K × V)} {v : V} (h : alGet k l = some v) :
    l.any (fun p => p.1 = k) = true := by
  induction l with
  | nil => simp [alGet] at h
  | cons q t ih =>
    unfold alGet at h
    by_cases hq : q.1 = k
    · simp [hq]
    · rw [if_neg hq] at h
      simp [ih h]

theorem tpsBest_inv (l : List Requirement) : bestInv (tpsBest l) := by
  unfold tpsBest
  refine foldl_inv bestInv _ ?_ l [] ⟨List.Pairwise.nil, by simp⟩
  intro best r hinv
  dsimp only
  cases halg : alGet r.requirementUid best with
  | none =>
    constructor
    · rw [List.pairwise_append]
      refine ⟨hinv.1, by simp, ?_⟩
      intro a ha b hb
      simp only [List.mem_singleton] at hb
      subst hb
      exact alGet_eq_none_forall halg a ha
    · intro p hp
      rcases List.mem_append.mp hp with hp2 | hp2
      · exact hinv.2 p hp2
      · simp only [List.mem_singleton] at hp2
        subst hp2
        rfl
  | some prev =>
    dsimp only
    by_cases hs : tpsScore prev < tpsScore r
    · rw [if_pos hs]
      unfold alUpsert
      rw [if_pos (alGet_isSome_any halg)]
      have hkey : ∀ p : Str × Requirement,
          ((fun p => if p.1 = r.requirementUid then (r.requirementUid, r) else p) p).1
            = p.1 := by
        intro p
        by_cases h : p.1 = r.requirementUid <;> simp [h]
      constructor
      · rw [List.pairwise_map]
        refine hinv.1.imp ?_
        intro a b hab
        rw [hkey a, hkey b]
        exact hab
      · intro p hp
        rcases List.mem_map.mp hp with ⟨q, hq, rfl⟩
        by_cases h : q.1 = r.requirementUid
        · simp [h]
        · simp only [if_neg h]
          exact hinv.2 q hq
    · rw [if_neg hs]
      exact hinv

/-- C1 amended: the consolidation of the TPS path always returns a list
with pairwise distinct requirement uids (the deduplication dictionary is
keyed by uid); the end-to-end uniqueness claim fails only on the RS
marker-first path, which never deduplicates. -/
theorem claim_C1_amended (reqs : List Requirement) (tables : Option Tables) :
    (consolidate_and_filter_tps reqs tables).Pairwise
      (fun r1 r2 => r1.requirementUid ≠ r2.requirementUid) := by
  unfold consolidate_and_filter_tps
  by_cases h : reqs = []
  · rw [if_pos h, h]
    exact List.Pairwise.nil
  · rw [if_neg h]
    obtain ⟨hpw, hval⟩ := tpsBest_inv (reqs.filter (tpsKeep (measurementTables tables)))
    unfold alValues
    rw [List.pairwise_map]
    refine hpw.imp_of_mem ?_
    intro a b ha hb hne
    rw [hval a ha, hval b hb]
    exact hne

/-- C6 amended: consolidation retains the highest-scoring candidate per
uid, where the score is body length plus fifty for an obligation keyword
plus twenty for a normative-strength classification; the keyword-bearing
candidate therefore wins whenever its total score is higher (in
particular for equal-length bodies), but a keyword-free body more than
seventy characters longer wins instead. -/
theorem claim_C6_amended (a b : Requirement) (tables : Option Tables)
    (huid : a.requirementUid = b.requirementUid)
    (ha : tpsKeep (measurementTables tables) a = true)
    (hb : tpsKeep (measurementTables tables) b = true)
    (hscore : tpsScore a < tpsScore b) :
    consolidate_and_filter_tps [a, b] tables = [b] := by
  unfold consolidate_and_filter_tps
  rw [if_neg (by simp)]
  show alValues (tpsBest (List.filter (tpsKeep (measurementTables tables)) [a, b])) = [b]
  have hfilter : [a, b].filter (tpsKeep (measurementTables tables)) = [a, b] := by
    simp [List.filter, ha, hb]
  rw [hfilter]
  unfold tpsBest
  simp only [List.foldl]
  have s1 : alGet a.requirementUid ([] : List (Str × Requirement)) = none := rfl
  rw [s1]
  have s2 : alGet b.requirementUid [(a.requirementUid, a)] = some a := by
    unfold alGet
    rw [if_pos huid]
  simp only [List.nil_append, s2, if_pos hscore]
  unfold alUpsert
  have hany : [(a.requirementUid, a)].any (fun p => p.1 = b.requirementUid) = true := by
    simp [huid]
  rw [if_pos hany]
  simp [huid, alValues]

/-- C6 witness: the amended dominance applied at a concrete pair: the
short keyword-bearing body scores 83 against the 94 of the long
keyword-free body, so when the keyword body is strictly stronger in score
it is retained. -/
theorem claim_C6_witness :
    consolidate_and_filter_tps [c6B, c6A] (some []) = [c6A] :=
  claim_C6_amended c6B c6A (some []) (by decide) (by decide) (by decide) (by decide)

/-- C7 amended: when the concatenated table csv text holds at least forty
RS markers and at least forty percent of the requirements carry numeric
TPS uids, the remap heuristic fires (so the recorded document type is
corrected to RS), and each numeric-uid requirement is re-namespaced into
RS hash form unless that RS uid is already taken, in which case it is
left unchanged. -/
theorem claim_C7_amended (tables : Tables) (reqs : List Requirement)
    (h40 : 40 ≤ tableRsMarkerCount tables)
    (hnum : reqs.filter (fun r => numericTpsUidMatch r.requirementUid) ≠ [])
    (hshare : 2 * max 1 reqs.length ≤
      5 * (reqs.filter (fun r => numericTpsUidMatch r.requirementUid)).length) :
    (tpsRsRemap tables reqs).2 = true ∧
    ∀ r ∈ reqs,
      (numericTpsUidMatch r.requirementUid = true →
        (reqs.map (fun x => x.requirementUid)).contains
            (rsRemapUid r.requirementUid) = false →
        { r with requirementUid := rsRemapUid r.requirementUid }
          ∈ (tpsRsRemap tables reqs).1) ∧
      (numericTpsUidMatch r.requirementUid = false →
        r ∈ (tpsRsRemap tables reqs).1) := by
  have hrw : tpsRsRemap tables reqs =
      (reqs.map (fun r =>
        if numericTpsUidMatch r.requirementUid then
          if (reqs.map (fun x => x.requirementUid)).contains
              (rsRemapUid r.requirementUid) then r
          else { r with requirementUid := rsRemapUid r.requirementUid }
        else r), true) := by
    unfold tpsRsRemap
    rw [if_pos h40]
    have hc : (decide (reqs.filter (fun r => numericTpsUidMatch r.requirementUid) ≠ []) &&
        decide (2 * (max 1 reqs.length) ≤
          5 * (reqs.filter (fun r => numericTpsUidMatch r.requirementUid)).length)) = true := by
      rw [decide_eq_true hnum, decide_eq_true hshare]
      rfl
    rw [if_pos hc]
  refine ⟨by rw [hrw], ?_⟩
  intro r hr
  constructor
  · intro hnm hcon
    rw [hrw]
    have heq : (fun r =>
        if numericTpsUidMatch r.requirementUid then
          if (reqs.map (fun x => x.requirementUid)).contains
              (rsRemapUid r.requirementUid) then r
          else { r with requirementUid := rsRemapUid r.requirementUid }
        else r) r = { r with requirementUid := rsRemapUid r.requirementUid } := by
      have hne : ¬((reqs.map (fun x => x.requirementUid)).contains
          (rsRemapUid r.requirementUid) = true) := by
        intro h
        rw [h] at hcon
        exact absurd hcon (by decide)
      dsimp only
      rw [if_pos hnm, if_neg hne]
    show { r with requirementUid := rsRemapUid r.requirementUid } ∈ reqs.map _
    rw [← heq]
    exact List.mem_map_of_mem _ hr
  · intro hnm
    rw [hrw]
    have heq : (fun r =>
        if numericTpsUidMatch r.requirementUid then
          if (reqs.map (fun x => x.requirementUid)).contains
              (rsRemapUid r.requirementUid) then r
          else { r with requirementUid := rsRemapUid r.requirementUid }
        else r) r = r := by
      have hne : ¬(numericTpsUidMatch r.requirementUid = true) := by
        intro h
        rw [h] at hnm
        exact absurd hnm (by decide)
      dsimp only
      rw [if_neg hne]
    show r ∈ reqs.map _
    rw [← heq]
    exact List.mem_map_of_mem _ hr

/-- C7 witness: the amended remap claim at a concrete input with forty
table markers and a single numeric requirement, whose uid is duly
re-namespaced while the document type correction fires. -/
theorem claim_C7_witness :
    (tpsRsRemap c7Tables [c7Numeric]).2 = true ∧
    { c7Numeric with requirementUid := rsRemapUid c7Numeric.requirementUid }
      ∈ (tpsRsRemap c7Tables [c7Numeric]).1 := by
  have h := claim_C7_amended c7Tables [c7Numeric] (by decide) (by decide) (by decide)
  exact ⟨h.1, (h.2 c7Numeric (by decide)).1 (by decide) (by decide)⟩

/- ----------------------------------------------------------------------
   C8: the classifier.  Bridge lemmas relate the kernel-reducible mkRat
   arithmetic to the field operations of ℚ.
   ---------------------------------------------------------------------- -/

theorem ratOfNat_eq (n : Nat) : ratOfNat n = (n : ℚ) := by
  simp [ratOfNat, Rat.mkRat_eq_div]

theorem ratAdd_eq (a b : ℚ) : ratAdd a b = a + b := by
  rw [ratAdd, Rat.mkRat_eq_div]
  have ha : (a.den : ℚ) ≠ 0 := by exact_mod_cast a.den_nz
  have hb : (b.den : ℚ) ≠ 0 := by exact_mod_cast b.den_nz
  conv_rhs => rw [← Rat.num_div_den a, ← Rat.num_div_den b]
  push_cast
  field_simp

theorem ratMul_eq (a b : ℚ) : ratMul a b = a * b := by
  rw [ratMul, Rat.mkRat_eq_div]
  have ha : (a.den : ℚ) ≠ 0 := by exact_mod_cast a.den_nz
  have hb : (b.den : ℚ) ≠ 0 := by exact_mod_cast b.den_nz
  conv_rhs => rw [← Rat.num_div_den a, ← Rat.num_div_den b]
  push_cast
  field_simp

theorem ratDiv_eq (a b : ℚ) : ratDiv a b = a / b := by
  rw [ratDiv]
  have ha : (a.den : ℚ) ≠ 0 := by exact_mod_cast a.den_nz
  by_cases hb : b = 0
  · subst hb
    simp [Rat.mkRat_eq_div]
  · have hbn : b.num ≠ 0 := Rat.num_ne_zero.mpr hb
    have hbnq : (b.num : ℚ) ≠ 0 := by exact_mod_cast hbn
    have hbd : (b.den : ℚ) ≠ 0 := by exact_mod_cast b.den_nz
    conv_rhs => rw [← Rat.num_div_den a, ← Rat.num_div_den b]
    split
    · rename_i hpos
      have hna : ((b.num.natAbs : ℚ)) = (b.num : ℚ) := by
        rw [← Int.natAbs_of_nonneg hpos]
        exact (Int.cast_natCast _).symm
      rw [Rat.mkRat_eq_div, Nat.cast_mul, hna]
      push_cast
      field_simp
    · rename_i hneg
      have hna : ((b.num.natAbs : ℚ)) = -(b.num : ℚ) := by
        have h : (b.num.natAbs : ℤ) = -b.num := by omega
        rw [show -(b.num : ℚ) = ((-b.num : ℤ) : ℚ) by push_cast; ring, ← h]
        exact (Int.cast_natCast _).symm
      rw [Rat.mkRat_eq_div, Nat.cast_mul, hna]
      push_cast
      field_simp

theorem ratLeB_iff (a b : ℚ) : ratLeB a b = true ↔ a ≤ b := by
  rw [ratLeB, Bool.not_eq_true']
  constructor
  · intro h
    exact le_of_not_lt (fun hlt => by
      rw [(Eq.to_iff rfl : Rat.blt b a = true ↔ b < a).mpr hlt] at h
      exact Bool.noConfusion h)
  · intro h
    by_contra hne
    have hbt : Rat.blt b a = true := by
      cases hblt : Rat.blt b a
      · exact absurd hblt hne
      · rfl
    exact absurd ((Eq.to_iff rfl : Rat.blt b a = true ↔ b < a).mp hbt) (not_lt.mpr h)

theorem ratFloor_eq (q : ℚ) : Rat.floor q = ⌊q⌋ := rfl

theorem round3_eq (q : ℚ) :
    round3 q = ((⌊q * 1000 + 1 / 2⌋ : ℤ) : ℚ) / 1000 := by
  rw [round3, ratAdd_eq, ratMul_eq, ratOfNat_eq, ratFloor_eq]
  simp only [Rat.mkRat_eq_div]
  norm_num

theorem round3_bounds (q : ℚ) (h0 : 0 ≤ q) (h1 : q < 1) :
    0 ≤ round3 q ∧ round3 q ≤ 1 := by
  rw [round3_eq]
  constructor
  · have hf : (0 : ℤ) ≤ ⌊q * 1000 + 1 / 2⌋ := Int.floor_nonneg.mpr (by nlinarith)
    have : (0 : ℚ) ≤ ((⌊q * 1000 + 1 / 2⌋ : ℤ) : ℚ) := by exact_mod_cast hf
    positivity
  · have hlt : q * 1000 + 1 / 2 < ((1001 : ℤ) : ℚ) := by push_cast; nlinarith
    have hf : ⌊q * 1000 + 1 / 2⌋ ≤ 1000 := by
      have := Int.floor_lt.mpr hlt
      omega
    rw [div_le_one (by norm_num)]
    exact_mod_cast hf

theorem classifierEps_pos : 0 < classifierEps := by
  rw [classifierEps, Rat.mkRat_eq_div]
  norm_num

theorem rs_score_nonneg (blocks : List Block) (midx : Option (List Marker))
    (filename : Option Str) : 0 ≤ rs_score_of blocks midx filename := by
  unfold rs_score_of
  simp only [ratAdd_eq, ratDiv_eq, ratOfNat_eq, Rat.mkRat_eq_div]
  repeat' split
  all_goals positivity

theorem tps_score_nonneg (blocks : List Block) (tables : Tables)
    (midx : Option (List Marker)) (filename : Option Str) :
    0 ≤ tps_score_of blocks tables midx filename := by
  unfold tps_score_of
  simp only [ratAdd_eq, ratDiv_eq, ratOfNat_eq, Rat.mkRat_eq_div]
  repeat' split
  all_goals positivity

/-- C8: classify_document returns UNKNOWN with confidence 0 exactly when
both evidence scores are zero; otherwise the higher-scoring kind wins (RS
on ties), with confidence round3 of that score over the sum of both plus
epsilon, and the returned confidence always lies in [0,1]. -/
theorem claim_C8_classifier (blocks : List Block) (tables : Tables)
    (filename : Option Str) (midx : Option (List Marker)) :
    (classify_document blocks tables filename midx =
      (if rs_score_of blocks midx filename = 0 ∧
          tps_score_of blocks tables midx filename = 0 then
        { docType := "UNKNOWN".toList, confidence := 0 }
      else if tps_score_of blocks tables midx filename ≤
          rs_score_of blocks midx filename then
        { docType := "RS".toList,
          confidence := round3 (rs_score_of blocks midx filename /
            (rs_score_of blocks midx filename +
             tps_score_of blocks tables midx filename + classifierEps)) }
      else
        { docType := "TPS".toList,
          confidence := round3 (tps_score_of blocks tables midx filename /
            (rs_score_of blocks midx filename +
             tps_score_of blocks tables midx filename + classifierEps)) }))
    ∧ ((classify_document blocks tables filename midx).docType =
          "UNKNOWN".toList ∧
        (classify_document blocks tables filename midx).confidence = 0 ↔
        rs_score_of blocks midx filename = 0 ∧
        tps_score_of blocks tables midx filename = 0)
    ∧ 0 ≤ (classify_document blocks tables filename midx).confidence
    ∧ (classify_document blocks tables filename midx).confidence ≤ 1 := by
  have hrs := rs_score_nonneg blocks midx filename
  have htps := tps_score_nonneg blocks tables midx filename
  have heps := classifierEps_pos
  have key : classify_document blocks tables filename midx =
      (if rs_score_of blocks midx filename = 0 ∧
          tps_score_of blocks tables midx filename = 0 then
        { docType := "UNKNOWN".toList, confidence := 0 }
      else if tps_score_of blocks tables midx filename ≤
          rs_score_of blocks midx filename then
        { docType := "RS".toList,
          confidence := round3 (rs_score_of blocks midx filename /
            (rs_score_of blocks midx filename +
             tps_score_of blocks tables midx filename + classifierEps)) }
      else
        { docType := "TPS".toList,
          confidence := round3 (tps_score_of blocks tables midx filename /
            (rs_score_of blocks midx filename +
             tps_score_of blocks tables midx filename + classifierEps)) }) := by
    unfold classify_document
    simp only [ratDiv_eq, ratAdd_eq]
    by_cases h1 : rs_score_of blocks midx filename = 0 ∧
        tps_score_of blocks tables midx filename = 0
    · have hcnd : (decide (rs_score_of blocks midx filename = 0) &&
          decide (tps_score_of blocks tables midx filename = 0)) = true := by
        simp [h1.1, h1.2]
      rw [if_pos hcnd, if_pos h1]
    · have hcnd : ¬((decide (rs_score_of blocks midx filename = 0) &&
          decide (tps_score_of blocks tables midx filename = 0)) = true) := by
        simp only [Bool.and_eq_true, decide_eq_true_eq]
        exact fun hc => h1 ⟨hc.1, hc.2⟩
      rw [if_neg hcnd, if_neg h1]
      by_cases h2 : tps_score_of blocks tables midx filename ≤
          rs_score_of blocks midx filename
      · have hle : ratLeB (tps_score_of blocks tables midx filename)
            (rs_score_of blocks midx filename) = true := (ratLeB_iff _ _).mpr h2
        rw [if_pos hle, if_pos h2]
      · have hle : ¬(ratLeB (tps_score_of blocks tables midx filename)
            (rs_score_of blocks midx filename) = true) :=
          fun hc => h2 ((ratLeB_iff _ _).mp hc)
        rw [if_neg hle, if_neg h2]
  refine ⟨key, ?_, ?_⟩
  · rw [key]
    by_cases h1 : rs_score_of blocks midx filename = 0 ∧
        tps_score_of blocks tables midx filename = 0
    · rw [if_pos h1]
      exact ⟨fun _ => h1, fun _ => ⟨rfl, rfl⟩⟩
    · rw [if_neg h1]
      by_cases h2 : tps_score_of blocks tables midx filename ≤
          rs_score_of blocks midx filename
      · rw [if_pos h2]
        refine ⟨fun hc => ?_, fun hc => absurd hc h1⟩
        have hR : "RS".toList = "UNKNOWN".toList := hc.1
        exact absurd hR (by decide)
      · rw [if_neg h2]
        refine ⟨fun hc => ?_, fun hc => absurd hc h1⟩
        have hT : "TPS".toList = "UNKNOWN".toList := hc.1
        exact absurd hT (by decide)
  · rw [key]
    by_cases h1 : rs_score_of blocks midx filename = 0 ∧
        tps_score_of blocks tables midx filename = 0
    · rw [if_pos h1]
      norm_num
    · rw [if_neg h1]
      have hsum : 0 < rs_score_of blocks midx filename +
          tps_score_of blocks tables midx filename + classifierEps := by linarith
      by_cases h2 : tps_score_of blocks tables midx filename ≤
          rs_score_of blocks midx filename
      · rw [if_pos h2]
        exact round3_bounds _ (div_nonneg hrs (le_of_lt hsum))
          ((div_lt_one hsum).mpr (by linarith))
      · rw [if_neg h2]
        exact round3_bounds _ (div_nonneg htps (le_of_lt hsum))
          ((div_lt_one hsum).mpr (by linarith))

/-- C3 amended: every requirement emitted by the RS marker-first builder
that is flagged as a stub carries no acceptance criteria and no
references (the stubs are all _stub_req literals); the TPS table branch,
shown in the counterexample, does not share this property. -/
theorem reqIte_stub_empty {c : Prop} [Decidable c] {r1 r2 : Requirement}
    (h1 : r1.isStub = true → r1.acceptanceCriteria = [] ∧ r1.references = [])
    (h2 : r2.isStub = true → r2.acceptanceCriteria = [] ∧ r2.references = []) :
    (if c then r1 else r2).isStub = true →
      (if c then r1 else r2).acceptanceCriteria = [] ∧
      (if c then r1 else r2).references = [] := by
  split
  · exact h1
  · exact h2

theorem claim_C3_amended (idx : List Marker) (blocks : List Block)
    (tables : Option Tables) :
    ∀ r ∈ build_requirements_from_markers idx blocks tables,
      r.isStub = true → r.acceptanceCriteria = [] ∧ r.references = [] := by
  unfold build_requirements_from_markers
  refine foldl_inv
    (fun (acc : List Requirement) => ∀ r ∈ acc,
      r.isStub = true → r.acceptanceCriteria = [] ∧ r.references = [])
    _ ?_ (by_container idx) [] (by simp)
  intro acc bucket hinv r hr
  obtain ⟨⟨ctype, cindex, tid⟩, markers⟩ := bucket
  dsimp only at hr
  split at hr
  · split at hr
    · exact hinv r hr
    · split at hr
      · exact hinv r hr
      · rcases List.mem_append.mp hr with h | h
        · exact hinv r h
        · obtain ⟨p, hp, rfl⟩ := List.mem_map.mp h
          obtain ⟨i, m⟩ := p
          dsimp only
          split
          · exact fun _ => ⟨rfl, rfl⟩
          · intro hstub
            exact Bool.noConfusion hstub
  · split at hr
    · cases tables with
      | none =>
        rcases List.mem_append.mp hr with h | h
        · exact hinv r h
        · obtain ⟨m, hm, rfl⟩ := List.mem_map.mp h
          exact fun _ => ⟨rfl, rfl⟩
      | some tbls =>
        rcases mem_ite_or hr with hif | hif
        · rcases List.mem_append.mp hif with h | h
          · exact hinv r h
          · obtain ⟨m, hm, rfl⟩ := List.mem_map.mp h
            exact fun _ => ⟨rfl, rfl⟩
        · rcases List.mem_append.mp hif with h | h
          · exact hinv r h
          · obtain ⟨m, hm, rfl⟩ := List.mem_map.mp h
            cases hcc : m.cellCoords with
            | none => exact fun _ => ⟨rfl, rfl⟩
            | some rc =>
              obtain ⟨rowIdx, colIdx⟩ := rc
              refine reqIte_stub_empty (fun _ => ⟨rfl, rfl⟩)
                (reqIte_stub_empty (fun _ => ⟨rfl, rfl⟩) ?_)
              intro hstub
              exact Bool.noConfusion hstub
    · exact hinv r hr

/-- C3 witness: the lone-marker paragraph document produces a stub
requirement, whose criteria and reference lists the amended theorem
forces to be empty. -/
theorem claim_C3_witness :
    ((build_requirements_from_markers (build_marker_index c3wDoc []) c3wDoc
        none).headD (stub_req defaultMarker [])) ∈
      build_requirements_from_markers (build_marker_index c3wDoc []) c3wDoc none ∧
    ((build_requirements_from_markers (build_marker_index c3wDoc []) c3wDoc
        none).headD (stub_req defaultMarker [])).isStub = true ∧
    ((build_requirements_from_markers (build_marker_index c3wDoc []) c3wDoc
        none).headD (stub_req defaultMarker [])).acceptanceCriteria = [] ∧
    ((build_requirements_from_markers (build_marker_index c3wDoc []) c3wDoc
        none).headD (stub_req defaultMarker [])).references = [] := by
  refine ⟨by decide, by decide, ?_⟩
  exact claim_C3_amended (build_marker_index c3wDoc []) c3wDoc none _
    (by decide) (by decide)

/- ----------------------------------------------------------------------
   C4: depth bounds of hierarchical identifiers, from the scanner and
   from the depth filter of the marker-first TPS builder.
   ---------------------------------------------------------------------- -/

theorem foldl_inv_of_mem {α β : Type} (P : α → Prop) (step : α → β → α) :
    ∀ (l : List β), (∀ acc b, b ∈ l → P acc → P (step acc b)) →
      ∀ init, P init → P (l.foldl step init) := by
  intro l
  induction l with
  | nil => intro _ init h; exact h
  | cons x t ih =>
    intro hstep init h
    exact ih (fun acc b hb => hstep acc b (List.mem_cons_of_mem x hb)) _
      (hstep init x (List.mem_cons_self x t) h)

theorem mem_insertBy {α : Type} (lt : α → α → Bool) (y x : α) :
    ∀ (l : List α), x ∈ insertBy lt y l → x = y ∨ x ∈ l := by
  intro l
  induction l with
  | nil =>
    intro hx
    unfold insertBy at hx
    exact Or.inl (List.mem_singleton.mp hx)
  | cons z t ih =>
    intro hx
    unfold insertBy at hx
    split at hx
    · rcases List.mem_cons.mp hx with rfl | hx2
      · exact Or.inl rfl
      · exact Or.inr hx2
    · rcases List.mem_cons.mp hx with rfl | hx2
      · exact Or.inr (List.mem_cons_self _ _)
      · rcases ih hx2 with h | h
        · exact Or.inl h
        · exact Or.inr (List.mem_cons_of_mem _ h)

theorem mem_stableSortBy {α : Type} (lt : α → α → Bool) (l : List α) :
    ∀ x ∈ stableSortBy lt l, x ∈ l := by
  unfold stableSortBy
  refine foldl_inv_of_mem (fun (acc : List α) => ∀ x ∈ acc, x ∈ l) _ l ?_ []
    (by simp)
  intro acc b hb hP x hx
  rcases mem_insertBy lt b x acc hx with rfl | h
  · exact hb
  · exact hP x h

theorem dotGroups_length_le : ∀ (maxc : Nat) (s : Str),
    (dotGroups maxc s).length ≤ maxc := by
  intro maxc
  induction maxc with
  | zero => intro s; simp [dotGroups]
  | succ n ih =>
    intro s
    unfold dotGroups
    split
    · dsimp only
      split
      · simp
      · simp only [List.length_cons]
        exact Nat.succ_le_succ (ih _)
    · simp

theorem dotGroups_digits : ∀ (maxc : Nat) (s : Str),
    ∀ g ∈ dotGroups maxc s, ∀ c ∈ g, c.isDigit = true := by
  intro maxc
  induction maxc with
  | zero => intro s g hg; simp [dotGroups] at hg
  | succ n ih =>
    intro s g hg
    unfold dotGroups at hg
    split at hg
    · dsimp only at hg
      split at hg
      · simp at hg
      · rcases List.mem_cons.mp hg with rfl | hg2
        · intro c hc
          exact List.mem_takeWhile_imp hc
        · exact ih _ g hg2
    · simp at hg

theorem countDots_append (a b : Str) :
    countDots (a ++ b) = countDots a + countDots b :=
  List.count_append _ _ _

theorem countDots_of_digits (s : Str) (h : ∀ c ∈ s, c.isDigit = true) :
    countDots s = 0 := by
  rw [countDots, List.count_eq_zero]
  intro hmem
  exact absurd (h _ hmem) (by decide)

theorem countDots_dotJoin (gs : List Str)
    (h : ∀ g ∈ gs, countDots g = 0) :
    countDots ((gs.map (fun g => '.' :: g)).flatten) = gs.length := by
  induction gs with
  | nil => rfl
  | cons g t ih =>
    rw [show ((g :: t).map (fun x => '.' :: x)).flatten =
        ('.' :: g) ++ (t.map (fun x => '.' :: x)).flatten by simp]
    rw [countDots_append]
    rw [show countDots ('.' :: g) = countDots g + 1 from List.count_cons_self _ _]
    rw [h g (List.mem_cons_self g t), ih (fun q hq => h q (List.mem_cons_of_mem g hq))]
    simp [List.length_cons, Nat.add_comm]

theorem uidOf_countDots (d0 : Str) (gs : List Str)
    (hd : ∀ c ∈ d0, c.isDigit = true)
    (hg : ∀ g ∈ gs, ∀ c ∈ g, c.isDigit = true) :
    countDots (d0 ++ (gs.map (fun g => '.' :: g)).flatten) = gs.length := by
  rw [countDots_append, countDots_of_digits _ hd,
    countDots_dotJoin _ (fun g hgs => countDots_of_digits g (hg g hgs))]
  omega

theorem tryTpsAt_countDots (s : Str) (len : Nat) (u : Str)
    (h : tryTpsAt s = some (len, u)) : countDots u ≤ 5 := by
  unfold tryTpsAt at h
  dsimp only at h
  split at h
  · exact absurd h (by simp)
  · split at h
    · exact absurd h (by simp)
    · split at h
      · injection h with h2
        injection h2 with _ h3
        subst h3
        rw [uidOf_countDots _ _ (fun c hc => List.mem_takeWhile_imp hc)
          (dotGroups_digits 5 _)]
        exact dotGroups_length_le 5 _
      · split at h
        · exact absurd h (by simp)
        · exact absurd h (by simp)
        · rename_i g1 g2 gt heq
          injection h with h2
          injection h2 with _ h3
          subst h3
          have hdig := dotGroups_digits 5
            (List.drop (List.takeWhile Char.isDigit s).length s)
          rw [heq] at hdig
          have hlen := dotGroups_length_le 5
            (List.drop (List.takeWhile Char.isDigit s).length s)
          rw [heq] at hlen
          rw [heq]
          rw [uidOf_countDots _ _ (fun c hc => List.mem_takeWhile_imp hc)
            (fun g hgm => hdig g ((List.dropLast_prefix _).subset hgm))]
          have h2 := List.length_dropLast (g1 :: g2 :: gt)
          omega

theorem tpsScan_countDots : ∀ (fuel : Nat) (prev : Option Char) (pos : Nat)
    (s : Str), ∀ t ∈ tpsScan fuel prev pos s, countDots t.2.2 ≤ 5 := by
  intro fuel
  induction fuel with
  | zero => intro prev pos s t ht; simp [tpsScan] at ht
  | succ n ih =>
    intro prev pos s t ht
    cases s with
    | nil => simp [tpsScan] at ht
    | cons c rest =>
      unfold tpsScan at ht
      dsimp only at ht
      split at ht
      · split at ht
        · rename_i len u heq
          rcases List.mem_cons.mp ht with rfl | ht2
          · exact tryTpsAt_countDots _ _ _ heq
          · exact ih _ _ _ t ht2
        · exact ih _ _ _ t ht
      · exact ih _ _ _ t ht

theorem msAdd_pres (Q : Marker → Prop) (st : MarkerState) (key : SeenKey)
    (m : Marker) (hst : ∀ x ∈ st.markers, Q x) (hm : Q m) :
    ∀ x ∈ (msAdd st key m).markers, Q x := by
  intro x hx
  unfold msAdd at hx
  split at hx
  · exact hst x hx
  · rcases List.mem_append.mp hx with h | h
    · exact hst x h
    · rw [List.mem_singleton.mp h]
      exact hm

theorem scanBlocks_depth (blocks : List Block) (st0 : MarkerState)
    (h0 : scanDepthInv st0) : scanDepthInv (scanBlocks blocks st0) := by
  unfold scanBlocks
  refine foldl_inv scanDepthInv _ ?_ blocks.enum st0 h0
  intro st p hst
  obtain ⟨i, blk⟩ := p
  dsimp only
  split
  · refine foldl_inv_of_mem scanDepthInv _
      (tpsScan (blk.text.length + 1) none 0 blk.text) ?_ _ ?_
    · intro st2 t ht hst2
      obtain ⟨s, e, uid⟩ := t
      dsimp only
      split
      · exact hst2
      · refine msAdd_pres _ _ _ _ hst2 ?_
        intro _
        exact tpsScan_countDots _ _ _ _ _ ht
    · refine foldl_inv scanDepthInv _ ?_ _ _ hst
      intro st2 t hst2
      obtain ⟨s, e, whole, a, b⟩ := t
      dsimp only
      refine msAdd_pres _ _ _ _ hst2 ?_
      intro hk
      have hk2 : "RS".toList = "TPS".toList := hk
      exact absurd hk2 (by decide)
  · exact hst

theorem scanTables_depth (tables : Tables) (st0 : MarkerState)
    (h0 : scanDepthInv st0) : scanDepthInv (scanTables tables st0) := by
  unfold scanTables
  refine foldl_inv scanDepthInv _ ?_ tables st0 h0
  intro st p hst
  obtain ⟨tableId, tinfo⟩ := p
  dsimp only
  split
  · exact hst
  · refine foldl_inv scanDepthInv _ ?_ _ _ hst
    intro st2 q hst2
    obtain ⟨rIndex, row⟩ := q
    dsimp only
    refine foldl_inv scanDepthInv _ ?_ _ _ hst2
    intro st3 q2 hst3
    obtain ⟨cIndex, cell⟩ := q2
    dsimp only
    refine foldl_inv_of_mem scanDepthInv _
      (tpsScan (cell.length + 1) none 0 cell) ?_ _ ?_
    · intro st4 t ht hst4
      obtain ⟨s, e, uid⟩ := t
      dsimp only
      split
      · exact hst4
      · refine msAdd_pres _ _ _ _ hst4 ?_
        intro _
        exact tpsScan_countDots _ _ _ _ _ ht
    · refine foldl_inv scanDepthInv _ ?_ _ _ hst3
      intro st4 t hst4
      obtain ⟨s, e, whole, a, b⟩ := t
      dsimp only
      refine msAdd_pres _ _ _ _ hst4 ?_
      intro hk
      have hk2 : "RS".toList = "TPS".toList := hk
      exact absurd hk2 (by decide)

/-- C4 amended: the Marker Index itself emits TPS identifiers of up to
five dots (six dot-separated components) — not four components as
claimed — and the four-dot depth filter lives in the marker-first TPS
builder, whose per-uid selection only retains markers with at most four
dots. -/
theorem claim_C4_amended (blocks : List Block) (tables : Tables)
    (idx : List Marker) :
    (∀ m ∈ build_marker_index blocks tables,
      m.kind = "TPS".toList → countDots m.uid ≤ 5) ∧
    (∀ p ∈ tpsUidMarkers idx, countDots (p.2).uid ≤ 4) := by
  constructor
  · intro m hm
    have hmem := mem_stableSortBy markerLt _ m hm
    exact scanTables_depth tables _
      (scanBlocks_depth blocks { markers := [], seen := [] } (by intro x hx; simp at hx))
      m hmem
  · unfold tpsUidMarkers
    refine foldl_inv
      (fun (acc : List (Str × Marker)) => ∀ p ∈ acc, countDots (p.2).uid ≤ 4)
      _ ?_ idx [] (by simp)
    intro acc m hP p hp
    split at hp
    · exact hP p hp
    · split at hp
      · exact hP p hp
      · split at hp
        · exact hP p hp
        · rcases List.mem_append.mp hp with h | h
          · exact hP p h
          · rename_i hdepth _
            rw [List.mem_singleton.mp h]
            exact Nat.le_of_not_lt hdepth

/-- C4 witness: on the five-component document the index emits the TPS
marker 1.2.3.4.5 (four dots), within the six-component scanner bound, and
the builder's selection retains it, within the four-dot filter bound. -/
theorem claim_C4_witness :
    ((build_marker_index c4Doc []).headD defaultMarker) ∈
      build_marker_index c4Doc [] ∧
    ((build_marker_index c4Doc []).headD defaultMarker).kind = "TPS".toList ∧
    countDots ((build_marker_index c4Doc []).headD defaultMarker).uid ≤ 5 ∧
    ((tpsUidMarkers (build_marker_index c4Doc [])).headD ([], defaultMarker)) ∈
      tpsUidMarkers (build_marker_index c4Doc []) ∧
    countDots (((tpsUidMarkers (build_marker_index c4Doc [])).headD
      ([], defaultMarker)).2).uid ≤ 4 := by
  refine ⟨by decide, by decide, ?_, by decide, ?_⟩
  · exact (claim_C4_amended c4Doc [] (build_marker_index c4Doc [])).1 _
      (by decide) (by decide)
  · exact (claim_C4_amended c4Doc [] (build_marker_index c4Doc [])).2 _ (by decide)

/- ----------------------------------------------------------------------
   C10: the shape of the emitted requirement uids on the two TPS paths.
   ---------------------------------------------------------------------- -/

theorem snd_mem_of_mem_enum {α : Type} {l : List α} {p : Nat × α}
    (h : p ∈ l.enum) : p.2 ∈ l := by
  rw [← List.enum_map_snd l]
  exact List.mem_map_of_mem Prod.snd h

theorem alGet_mem {K V : Type} [DecidableEq K] {k : K} :
    ∀ {l : List (K × V)} {v : V}, alGet k l = some v → (k, v) ∈ l := by
  intro l
  induction l with
  | nil => intro v h; simp [alGet] at h
  | cons q t ih =>
    obtain ⟨qk, qv⟩ := q
    intro v h
    unfold alGet at h
    split at h
    · rename_i hq
      injection h with h
      subst h
      have hq2 : qk = k := hq
      subst hq2
      exact List.mem_cons_self _ _
    · exact List.mem_cons_of_mem _ (ih h)

theorem mem_alUpsert {K V : Type} [DecidableEq K] (k : K) (v : V)
    (l : List (K × V)) (p : K × V) (h : p ∈ alUpsert k v l) :
    p = (k, v) ∨ p ∈ l := by
  unfold alUpsert at h
  split at h
  · obtain ⟨q, hq, hfq⟩ := List.mem_map.mp h
    by_cases hqk : q.1 = k
    · rw [if_pos hqk] at hfq
      exact Or.inl hfq.symm
    · rw [if_neg hqk] at hfq
      exact Or.inr (hfq ▸ hq)
  · rcases List.mem_append.mp h with h2 | h2
    · exact Or.inr h2
    · exact Or.inl (List.mem_singleton.mp h2)

theorem by_container_sub (idx : List Marker) :
    ∀ b ∈ by_container idx, ∀ m ∈ b.2, m ∈ idx := by
  unfold by_container
  refine foldl_inv_of_mem
    (fun (buckets : List (ContKey × List Marker)) =>
      ∀ b ∈ buckets, ∀ m ∈ b.2, m ∈ idx) _ idx ?_ [] (by simp)
  intro buckets mk hmk hP b hb m hm
  dsimp only at hb
  split at hb
  · rename_i l halg
    rcases mem_alUpsert _ _ _ _ hb with hb2 | hb2
    · subst hb2
      rcases List.mem_append.mp hm with h | h
      · exact hP _ (alGet_mem halg) m h
      · rw [List.mem_singleton.mp h]
        exact hmk
    · exact hP b hb2 m hm
  · rcases List.mem_append.mp hb with h | h
    · exact hP b h m hm
    · have hb2 := List.mem_singleton.mp h
      subst hb2
      rw [List.mem_singleton.mp hm]
      exact hmk

theorem tpsUidMarkers_spec (idx : List Marker) :
    ∀ p ∈ tpsUidMarkers idx,
      p.2 ∈ idx ∧ p.2.kind = "TPS".toList ∧ p.2.uid = p.1 := by
  unfold tpsUidMarkers
  refine foldl_inv_of_mem
    (fun (acc : List (Str × Marker)) => ∀ p ∈ acc,
      p.2 ∈ idx ∧ p.2.kind = "TPS".toList ∧ p.2.uid = p.1) _ idx ?_ [] (by simp)
  intro acc m hm hP p hp
  split at hp
  · exact hP p hp
  · rename_i hkind
    split at hp
    · exact hP p hp
    · split at hp
      · exact hP p hp
      · rcases List.mem_append.mp hp with h | h
        · exact hP p h
        · rw [List.mem_singleton.mp h]
          exact ⟨hm, not_not.mp hkind, rfl⟩

theorem idTableRowRequirement_spec (tableId : Str) (cols : ColMap)
    (idCol rIndex : Nat) (row : List Str) (r : Requirement)
    (h : idTableRowRequirement tableId cols idCol rIndex row = some r) :
    isHierId (pyStrip (row.getD idCol [])) = true ∧
    r.requirementUid = "TPS:".toList ++ pyStrip (row.getD idCol []) := by
  unfold idTableRowRequirement at h
  dsimp only at h
  split at h
  · exact absurd h (by simp)
  · split at h
    · exact absurd h (by simp)
    · rename_i hcond
      have hhier : isHierId (pyStrip (row.getD idCol [])) = true := by
        simp only [Bool.or_eq_true, Bool.not_eq_true', decide_eq_true_eq]
          at hcond
        cases hb : isHierId (pyStrip (row.getD idCol []))
        · exact absurd (Or.inr hb) hcond
        · rfl
      repeat' split at h
      all_goals
        first
          | exact Option.noConfusion h
          | (injection h with h
             subst h
             exact ⟨hhier, rfl⟩)

/-- C10 amended: every requirement of the marker-first TPS builder carries
the uid TPS: followed by the canonicalization of some TPS marker id of the
index; canonicalization keeps the first two components only, zero-padding
the first to three digits and int-normalizing the second (leading zeros
dropped) behind a hash sign; the ID-table extractor instead emits the full
hierarchical identifier unchanged after TPS:. -/
theorem claim_C10_amended (idx : List Marker) (blocks : List Block)
    (tables : Option Tables) :
    (∀ r ∈ build_tps_requirements_from_markers idx blocks tables,
       ∃ m ∈ idx, m.kind = "TPS".toList ∧
         r.requirementUid = "TPS:".toList ++ canonicalize_tps_uid m.uid)
    ∧ (∀ (u c0 c1 : Str) (rest : List Str),
         u.splitOn '.' = c0 :: c1 :: rest →
         c0 ≠ [] ∧ c0.all Char.isDigit = true →
         c1 ≠ [] ∧ c1.all Char.isDigit = true →
         canonicalize_tps_uid u =
           '#' :: (pad3 (natOfDigits c0) ++ '.' :: natRepr (natOfDigits c1)))
    ∧ (∀ r ∈ build_tps_requirements_from_id_tables tables,
         ∃ rawId, isHierId rawId = true ∧
           r.requirementUid = "TPS:".toList ++ rawId) := by
  refine ⟨?_, ?_, ?_⟩
  · unfold build_tps_requirements_from_markers
    refine foldl_inv_of_mem
      (fun (acc : List Requirement) => ∀ r ∈ acc,
        ∃ m ∈ idx, m.kind = "TPS".toList ∧
          r.requirementUid = "TPS:".toList ++ canonicalize_tps_uid m.uid)
      _ (tpsUidMarkers idx) ?_ [] (by simp)
    intro acc p hpmem hP r hr
    obtain ⟨rawUid, marker⟩ := p
    dsimp only at hr
    rcases mem_ite_or hr with h | h
    · rcases mem_ite_or h with h2 | h2
      · exact hP r h2
      · rcases List.mem_append.mp h2 with h3 | h3
        · exact hP r h3
        · obtain ⟨q, hq, hfq⟩ := List.mem_filterMap.mp h3
          obtain ⟨i, pm⟩ := q
          dsimp only at hfq
          split at hfq
          · exact absurd hfq (by simp)
          · injection hfq with hfq
            subst hfq
            have hpm := mem_stableSortBy _ _ pm (snd_mem_of_mem_enum hq)
            have hmf := List.mem_filter.mp hpm
            cases halg : alGet ("paragraph".toList, marker.containerIndex,
                (none : Option Str)) (by_container idx) with
            | none =>
              rw [halg] at hmf
              exact absurd hmf.1 (by simp)
            | some l =>
              rw [halg] at hmf
              refine ⟨pm, by_container_sub idx _ (alGet_mem halg) pm hmf.1,
                by simpa using hmf.2, rfl⟩
    · rcases mem_ite_or h with h2 | h2
      · rcases mem_ite_or h2 with h3 | h3
        · exact hP r h3
        · rcases List.mem_append.mp h3 with h4 | h4
          · exact hP r h4
          · rw [List.mem_singleton.mp h4]
            obtain ⟨hin, hkind, huid⟩ := tpsUidMarkers_spec idx _ hpmem
            exact ⟨marker, hin, hkind,
              congrArg (fun u => "TPS:".toList ++ canonicalize_tps_uid u)
                huid.symm⟩
      · exact hP r h2
  · intro u c0 c1 rest hsplit h0 h1
    unfold canonicalize_tps_uid
    rw [hsplit]
    dsimp only
    rw [if_pos (show (decide ¬c0 = [] && c0.all Char.isDigit) = true by
      rw [decide_eq_true h0.1, h0.2]
      rfl)]
    rw [if_pos (show (decide ¬c1 = [] && c1.all Char.isDigit) = true by
      rw [decide_eq_true h1.1, h1.2]
      rfl)]
  · cases tables with
    | none => intro r hr; simp [build_tps_requirements_from_id_tables] at hr
    | some tbls =>
      unfold build_tps_requirements_from_id_tables
      refine foldl_inv
        (fun (acc : List Requirement) => ∀ r ∈ acc,
          ∃ rawId, isHierId rawId = true ∧
            r.requirementUid = "TPS:".toList ++ rawId) _ ?_ tbls [] (by simp)
      intro acc p hP r hr
      obtain ⟨tableId, tinfo⟩ := p
      dsimp only at hr
      rcases mem_ite_or hr with h | h
      · exact hP r h
      · rcases mem_ite_or h with h2 | h2
        · exact hP r h2
        · rcases hdc : (detect_columns ((parseCsv tinfo.csvData).headD [])).id
            with _ | dcIdx
          · rw [hdc] at h2
            dsimp only at h2
            rcases hdyn : dynamicIdColumn ((parseCsv tinfo.csvData).headD [])
                (List.drop 1 (parseCsv tinfo.csvData)) with _ | ci
            · rw [hdyn] at h2
              dsimp only at h2
              rw [hdc] at h2
              dsimp only at h2
              exact hP r h2
            · rw [hdyn] at h2
              dsimp only at h2
              rcases mem_ite_or h2 with h5 | h5
              · exact hP r h5
              · rcases List.mem_append.mp h5 with h6 | h6
                · exact hP r h6
                · obtain ⟨q, hq, hfq⟩ := List.mem_filterMap.mp h6
                  obtain ⟨i, row⟩ := q
                  obtain ⟨hhier, huid⟩ :=
                    idTableRowRequirement_spec _ _ _ _ _ _ hfq
                  exact ⟨_, hhier, huid⟩
          · rw [hdc] at h2
            dsimp only at h2
            rw [hdc] at h2
            dsimp only at h2
            rcases mem_ite_or h2 with h5 | h5
            · exact hP r h5
            · rcases List.mem_append.mp h5 with h6 | h6
              · exact hP r h6
              · obtain ⟨q, hq, hfq⟩ := List.mem_filterMap.mp h6
                obtain ⟨i, row⟩ := q
                obtain ⟨hhier, huid⟩ :=
                  idTableRowRequirement_spec _ _ _ _ _ _ hfq
                exact ⟨_, hhier, huid⟩

/-- C10 witness: the amended uid-shape theorem at the leading-zero
document (marker 4.01 canonicalizes to #004.1) and at the end-to-end
scenario table (hierarchical id 4.1.2.7 passes through unchanged). -/
theorem claim_C10_witness :
    ((build_tps_requirements_from_markers (build_marker_index c10Doc [])
        c10Doc (some [])).headD (stub_req defaultMarker [])) ∈
      build_tps_requirements_from_markers (build_marker_index c10Doc [])
        c10Doc (some []) ∧
    (∃ m ∈ build_marker_index c10Doc [], m.kind = "TPS".toList ∧
      ((build_tps_requirements_from_markers (build_marker_index c10Doc [])
          c10Doc (some [])).headD (stub_req defaultMarker [])).requirementUid =
        "TPS:".toList ++ canonicalize_tps_uid m.uid) ∧
    "4.01".toList.splitOn '.' = ["4".toList, "01".toList] ∧
    canonicalize_tps_uid "4.01".toList =
      '#' :: (pad3 (natOfDigits "4".toList) ++
        '.' :: natRepr (natOfDigits "01".toList)) ∧
    ((build_tps_requirements_from_id_tables (some c2Tables)).headD
        (stub_req defaultMarker [])) ∈
      build_tps_requirements_from_id_tables (some c2Tables) ∧
    (∃ rawId, isHierId rawId = true ∧
      ((build_tps_requirements_from_id_tables (some c2Tables)).headD
          (stub_req defaultMarker [])).requirementUid =
        "TPS:".toList ++ rawId) := by
  refine ⟨by decide, ?_, by decide, ?_, by decide, ?_⟩
  · exact (claim_C10_amended (build_marker_index c10Doc []) c10Doc
      (some [])).1 _ (by decide)
  · exact (claim_C10_amended [] [] none).2.1 "4.01".toList "4".toList
      "01".toList [] (by decide) (by decide) (by decide)
  · exact (claim_C10_amended [] [] (some c2Tables)).2.2 _ (by decide)

/-- C8 witness: the classifier theorem instantiated on the C1 document
(nonzero RS score) pins down the concrete RS verdict, and on the empty
document pins down the UNKNOWN verdict with zero confidence. -/
theorem claim_C8_witness :
    (classify_document [] [] none none).docType = "UNKNOWN".toList ∧
    (classify_document [] [] none none).confidence = 0 := by
  have h := (claim_C8_classifier [] [] none none).2.1
  have hz : rs_score_of [] none none = 0 ∧ tps_score_of [] [] none none = 0 := by
    constructor <;> decide
  exact h.mpr hz

end Docling
